import Mathlib

/-!
Verification development for the GPLANG compiler front end.

The definitions below are a shallow embedding of the C sources:
`src/frontend/lexer.c`, `src/frontend/parser.c`, `src/frontend/ast.c`,
`src/frontend/semantic.c`, `src/ir/ir.c` and `src/main.c`.  C strings are
modelled as `String` / `List Char`, `NULL` pointers as `Option.none`,
dynamic allocation is assumed to succeed, and loops whose C counterparts
may fail to terminate are given an explicit fuel argument.  For loops of
the lexer the fuel `source.length - position` is provably sufficient (each
iteration advances the position and the loop guard fails at end of input),
so the fueled definitions compute exactly what the C loops compute.  For
the parser, whose loops genuinely can run forever, the result `oom` means
the fuel ran out; "`oom` for every fuel" expresses that the C loop never
exits.  Undefined behaviour (dereferencing a `NULL` pointer) is modelled
by an explicit `crash` result.
-/

set_option maxRecDepth 40000

namespace GPLang

/-- Token types, from `src/frontend/lexer.h` (the `TOKEN_LPAREN` …
`TOKEN_RBRACE` aliases denote the same enum values as the `LEFT_*` /
`RIGHT_*` names and are not repeated). -/
inductive TokenType where
  | NUMBER | STRING | IDENTIFIER
  | FUNC | FUN | FU
  | VAR | CONST | IF | ELIF | ELSE
  | WHILE | FOR | IN | RETURN
  | AND | OR | NOT
  | TRUE | FALSE | IMPORT | PARALLEL
  | UNSAFE
  | ASYNC | AWAIT | SPAWN
  | MATCH | SOME | NONE
  | OK | ERR | OPTION | RESULT
  | TEST | BENCH
  | INT | FLOAT | STR | STRING_TYPE
  | BOOL | LIST | DICT | SET | TUPLE
  | FUTURE | CHANNEL | TASK
  | VEC2 | VEC3 | VEC4 | MATRIX4
  | COLOR | TIME | REF | MUT
  | OS | SYS | ENV | PROCESS | STD
  | PLUS | MINUS | MULTIPLY | DIVIDE | MODULO
  | ASSIGN | EQ | NE
  | LT | LE | GT | GE
  | ARROW | POWER
  | LEFT_PAREN | RIGHT_PAREN
  | LEFT_BRACKET | RIGHT_BRACKET
  | LEFT_BRACE | RIGHT_BRACE
  | COMMA | DOT | COLON | SEMICOLON
  | NEWLINE | INDENT | DEDENT
  | COMMENT | EOF | ERROR
  deriving DecidableEq, Repr

/-- `Token` from `src/frontend/lexer.h`; `value` is the (possibly `NULL`)
`char*` lexeme.  The redundant `length` field is omitted. -/
structure Token where
  type : TokenType
  value : Option String
  line : Nat
  column : Nat
  deriving DecidableEq, Repr

/-- The keyword table `keywords[]` of `src/frontend/lexer.c`. -/
def keywords : List (String × TokenType) :=
  [("func", .FUNC), ("fun", .FUN), ("fu", .FU),
   ("var", .VAR), ("if", .IF), ("elif", .ELIF), ("else", .ELSE),
   ("while", .WHILE), ("for", .FOR), ("in", .IN), ("return", .RETURN),
   ("and", .AND), ("or", .OR), ("not", .NOT),
   ("true", .TRUE), ("false", .FALSE), ("import", .IMPORT),
   ("unsafe", .UNSAFE), ("async", .ASYNC), ("await", .AWAIT), ("spawn", .SPAWN),
   ("match", .MATCH), ("Some", .SOME), ("None", .NONE),
   ("Ok", .OK), ("Err", .ERR), ("Option", .OPTION), ("Result", .RESULT),
   ("test", .TEST), ("bench", .BENCH),
   ("int", .INT), ("float", .FLOAT), ("str", .STR), ("string", .STRING_TYPE),
   ("bool", .BOOL), ("list", .LIST), ("dict", .DICT), ("set", .SET), ("tuple", .TUPLE),
   ("Future", .FUTURE), ("Channel", .CHANNEL), ("Task", .TASK),
   ("Vec2", .VEC2), ("Vec3", .VEC3), ("Vec4", .VEC4), ("Matrix4", .MATRIX4),
   ("Color", .COLOR), ("Time", .TIME), ("Ref", .REF), ("Mut", .MUT),
   ("os", .OS), ("sys", .SYS), ("env", .ENV), ("process", .PROCESS), ("std", .STD)]

/-- `is_keyword` of `lexer.c`. -/
def is_keyword (text : String) : Bool :=
  (keywords.find? (fun kv => kv.1 = text)).isSome

/-- `get_keyword_type` of `lexer.c`. -/
def get_keyword_type (text : String) : TokenType :=
  match keywords.find? (fun kv => kv.1 = text) with
  | some kv => kv.2
  | none => .IDENTIFIER

/-- The `Lexer` state of `src/frontend/lexer.h`.  `source_length` is
`source.length`; the (unused) indentation stack is omitted. -/
structure Lexer where
  source : List Char
  position : Nat
  line : Nat
  column : Nat
  has_errors : Bool
  error_message : Option String
  deriving DecidableEq, Repr

/-- `lexer_create` of `lexer.c`. -/
def lexer_create (source : List Char) : Lexer :=
  ⟨source, 0, 1, 1, false, none⟩

/-- The C string terminator returned by `current_char` at end of input. -/
def nul : Char := Char.ofNat 0

/-- `current_char` of `lexer.c`. -/
def current_char (l : Lexer) : Char :=
  if l.position ≥ l.source.length then nul else l.source.getD l.position nul

/-- `advance` of `lexer.c` (returns the consumed character and the new
state). -/
def advance (l : Lexer) : Char × Lexer :=
  if l.position ≥ l.source.length then (nul, l)
  else
    let ch := l.source.getD l.position nul
    if ch = '\n' then
      (ch, { l with position := l.position + 1, line := l.line + 1, column := 1 })
    else
      (ch, { l with position := l.position + 1, column := l.column + 1 })

/-- `advance` when the consumed character is discarded. -/
def advanceL (l : Lexer) : Lexer := (advance l).2

theorem advanceL_source (l : Lexer) : (advanceL l).source = l.source := by
  unfold advanceL advance
  split
  · rfl
  · dsimp only
    split <;> rfl

theorem advanceL_position_le (l : Lexer) : l.position ≤ (advanceL l).position := by
  unfold advanceL advance
  split
  · exact le_refl _
  · dsimp only
    split <;> exact Nat.le_succ _

theorem advanceL_position_lt (l : Lexer) (h : l.position < l.source.length) :
    (advanceL l).position = l.position + 1 := by
  unfold advanceL advance
  rw [if_neg (by omega)]
  dsimp only
  split <;> rfl

theorem current_char_ne_nul_lt (l : Lexer) (h : current_char l ≠ nul) :
    l.position < l.source.length := by
  by_contra hc
  apply h
  unfold current_char
  rw [if_pos (by omega)]

theorem advanceL_errors (l : Lexer) :
    (advanceL l).has_errors = l.has_errors ∧
    (advanceL l).error_message = l.error_message := by
  unfold advanceL advance
  split
  · exact ⟨rfl, rfl⟩
  · dsimp only
    split <;> exact ⟨rfl, rfl⟩

theorem advanceL_position_le_length (l : Lexer) (h : l.position ≤ l.source.length) :
    (advanceL l).position ≤ l.source.length := by
  unfold advanceL advance
  split
  · exact h
  · dsimp only
    split <;> (dsimp only; omega)

/-- The loop of `skip_whitespace` of `lexer.c`.  The fuel
`source.length - position` passed by the wrapper below is sufficient:
when it reaches 0 the position is at end of input and the loop guard is
false anyway (see `skip_whitespace_fuel_exact`). -/
def skip_whitespace_fuel : Nat → Lexer → Lexer
  | 0, l => l
  | fuel + 1, l =>
      if current_char l ≠ nul ∧
          (current_char l = ' ' ∨ current_char l = '\t' ∨ current_char l = '\r') then
        skip_whitespace_fuel fuel (advanceL l)
      else l

/-- `skip_whitespace` of `lexer.c`. -/
def skip_whitespace (l : Lexer) : Lexer :=
  skip_whitespace_fuel (l.source.length - l.position) l

/-- `is_identifier_char` of `lexer.c` (`isalnum(ch) || ch == '_'`, ASCII). -/
def is_identifier_char (ch : Char) : Bool := ch.isAlphanum || ch = '_'

/-- The identifier scanning loop inside `read_identifier` of `lexer.c`. -/
def ident_loop_fuel : Nat → Lexer → Lexer
  | 0, l => l
  | fuel + 1, l =>
      if is_identifier_char (current_char l) then ident_loop_fuel fuel (advanceL l)
      else l

def ident_loop (l : Lexer) : Lexer :=
  ident_loop_fuel (l.source.length - l.position) l

/-- `token_create` of `lexer.c`. -/
def token_create (type : TokenType) (value : Option String) (line column : Nat) :
    Token :=
  ⟨type, value, line, column⟩

/-- The lexeme text `strncpy`ed out of the source between two positions. -/
def lexeme (l : Lexer) (start_pos stop_pos : Nat) : String :=
  String.mk ((l.source.drop start_pos).take (stop_pos - start_pos))

/-- `read_identifier` of `lexer.c`. -/
def read_identifier (l : Lexer) : Token × Lexer :=
  let start_line := l.line
  let start_column := l.column
  let start_pos := l.position
  let l2 := ident_loop l
  let text := lexeme l2 start_pos l2.position
  let type := if is_keyword text then get_keyword_type text else TokenType.IDENTIFIER
  (token_create type (some text) start_line start_column, l2)

/-- The digit scanning loops inside `read_number` of `lexer.c`. -/
def digit_loop_fuel : Nat → Lexer → Lexer
  | 0, l => l
  | fuel + 1, l =>
      if (current_char l).isDigit then digit_loop_fuel fuel (advanceL l) else l

def digit_loop (l : Lexer) : Lexer :=
  digit_loop_fuel (l.source.length - l.position) l

/-- `read_number` of `lexer.c`. -/
def read_number (l : Lexer) : Token × Lexer :=
  let start_line := l.line
  let start_column := l.column
  let start_pos := l.position
  let l2 := digit_loop l
  let l3 := if current_char l2 = '.' then digit_loop (advanceL l2) else l2
  let l4 := if current_char l3 = 'f' then advanceL l3 else l3
  let text := lexeme l4 start_pos l4.position
  (token_create .NUMBER (some text) start_line start_column, l4)

/-- `lexer_error` of `lexer.c`: sets the error flag and replaces the
previous message. -/
def lexer_error (l : Lexer) (message : String) : Lexer :=
  { l with has_errors := true, error_message := some message }

/-- The scanning loop inside `read_string` of `lexer.c`: a backslash makes
`advance` run twice, consuming the following character as well. -/
def string_loop_fuel : Nat → Lexer → Lexer
  | 0, l => l
  | fuel + 1, l =>
      if current_char l ≠ nul ∧ current_char l ≠ '"' then
        if current_char l = '\\' then string_loop_fuel fuel (advanceL (advanceL l))
        else string_loop_fuel fuel (advanceL l)
      else l

def string_loop (l : Lexer) : Lexer :=
  string_loop_fuel (l.source.length - l.position) l

/-- `read_string` of `lexer.c`. -/
def read_string (l : Lexer) : Token × Lexer :=
  let start_line := l.line
  let start_column := l.column
  let l1 := advanceL l
  let start_pos := l1.position
  let l2 := string_loop l1
  if current_char l2 = '"' then
    let text := lexeme l2 start_pos l2.position
    (token_create .STRING (some text) start_line start_column, advanceL l2)
  else
    (token_create .ERROR none start_line start_column,
     lexer_error l2 "Unterminated string literal")

/-- The comment scanning loop inside `lexer_next_token` of `lexer.c`. -/
def comment_loop_fuel : Nat → Lexer → Lexer
  | 0, l => l
  | fuel + 1, l =>
      if current_char l ≠ nul ∧ current_char l ≠ '\n' then
        comment_loop_fuel fuel (advanceL l)
      else l

def comment_loop (l : Lexer) : Lexer :=
  comment_loop_fuel (l.source.length - l.position) l

/-- The dispatch on the current character inside `lexer_next_token` of
`lexer.c` (reached when the position is not yet at end of input); the C
locals `ch`/`line`/`column` are inlined. -/
def next_token_core (l : Lexer) : Token × Lexer :=
  if current_char l = '\n' then
    (token_create .NEWLINE (some "\n") l.line l.column, advanceL l)
  else if current_char l = '+' then
    (token_create .PLUS (some "+") l.line l.column, advanceL l)
  else if current_char l = '-' then
    (token_create .MINUS (some "-") l.line l.column, advanceL l)
  else if current_char l = '*' then
    (token_create .MULTIPLY (some "*") l.line l.column, advanceL l)
  else if current_char l = '/' then
    (token_create .DIVIDE (some "/") l.line l.column, advanceL l)
  else if current_char l = '%' then
    (token_create .MODULO (some "%") l.line l.column, advanceL l)
  else if current_char l = '(' then
    (token_create .LEFT_PAREN (some "(") l.line l.column, advanceL l)
  else if current_char l = ')' then
    (token_create .RIGHT_PAREN (some ")") l.line l.column, advanceL l)
  else if current_char l = '[' then
    (token_create .LEFT_BRACKET (some "[") l.line l.column, advanceL l)
  else if current_char l = ']' then
    (token_create .RIGHT_BRACKET (some "]") l.line l.column, advanceL l)
  else if current_char l = '{' then
    (token_create .LEFT_BRACE (some "\x7b") l.line l.column, advanceL l)
  else if current_char l = '}' then
    (token_create .RIGHT_BRACE (some "\x7d") l.line l.column, advanceL l)
  else if current_char l = ',' then
    (token_create .COMMA (some ",") l.line l.column, advanceL l)
  else if current_char l = '.' then
    (token_create .DOT (some ".") l.line l.column, advanceL l)
  else if current_char l = ':' then
    (token_create .COLON (some ":") l.line l.column, advanceL l)
  else if current_char l = ';' then
    (token_create .SEMICOLON (some ";") l.line l.column, advanceL l)
  else if current_char l = '=' then
    if current_char (advanceL l) = '=' then
      (token_create .EQ (some "==") l.line l.column, advanceL (advanceL l))
    else (token_create .ASSIGN (some "=") l.line l.column, advanceL l)
  else if current_char l = '!' then
    if current_char (advanceL l) = '=' then
      (token_create .NE (some "!=") l.line l.column, advanceL (advanceL l))
    else (token_create .NOT (some "!") l.line l.column, advanceL l)
  else if current_char l = '<' then
    if current_char (advanceL l) = '=' then
      (token_create .LE (some "<=") l.line l.column, advanceL (advanceL l))
    else (token_create .LT (some "<") l.line l.column, advanceL l)
  else if current_char l = '>' then
    if current_char (advanceL l) = '=' then
      (token_create .GE (some ">=") l.line l.column, advanceL (advanceL l))
    else (token_create .GT (some ">") l.line l.column, advanceL l)
  else if current_char l = '#' then
    (token_create .COMMENT
      (some (lexeme (comment_loop l) l.position (comment_loop l).position))
      l.line l.column, comment_loop l)
  else if current_char l = '"' then read_string l
  else if (current_char l).isDigit then read_number l
  else if (current_char l).isAlpha ∨ current_char l = '_' then read_identifier l
  else (token_create .ERROR none l.line l.column, advanceL l)

/-- `lexer_next_token` of `lexer.c`. -/
def lexer_next_token (l0 : Lexer) : Token × Lexer :=
  let l := skip_whitespace l0
  if l.position ≥ l.source.length then
    (token_create .EOF none l.line l.column, l)
  else next_token_core l

/-! ### Basic facts about the lexer loops -/

theorem skip_whitespace_fuel_source (fuel : Nat) (l : Lexer) :
    (skip_whitespace_fuel fuel l).source = l.source := by
  induction fuel generalizing l with
  | zero => rfl
  | succ n ih =>
      rw [skip_whitespace_fuel]
      split
      · rw [ih, advanceL_source]
      · rfl

theorem skip_whitespace_fuel_position_le (fuel : Nat) (l : Lexer) :
    l.position ≤ (skip_whitespace_fuel fuel l).position := by
  induction fuel generalizing l with
  | zero => exact le_refl _
  | succ n ih =>
      rw [skip_whitespace_fuel]
      split
      · exact le_trans (advanceL_position_le l) (ih _)
      · exact le_refl _

theorem skip_whitespace_source (l : Lexer) :
    (skip_whitespace l).source = l.source :=
  skip_whitespace_fuel_source _ l

theorem skip_whitespace_position_le (l : Lexer) :
    l.position ≤ (skip_whitespace l).position :=
  skip_whitespace_fuel_position_le _ l

theorem skip_whitespace_at_end (l : Lexer) (h : l.source.length ≤ l.position) :
    skip_whitespace l = l := by
  unfold skip_whitespace
  rw [show l.source.length - l.position = 0 by omega]
  rfl

theorem ident_loop_fuel_source (fuel : Nat) (l : Lexer) :
    (ident_loop_fuel fuel l).source = l.source := by
  induction fuel generalizing l with
  | zero => rfl
  | succ n ih =>
      rw [ident_loop_fuel]
      split
      · rw [ih, advanceL_source]
      · rfl

theorem ident_loop_fuel_position_le (fuel : Nat) (l : Lexer) :
    l.position ≤ (ident_loop_fuel fuel l).position := by
  induction fuel generalizing l with
  | zero => exact le_refl _
  | succ n ih =>
      rw [ident_loop_fuel]
      split
      · exact le_trans (advanceL_position_le l) (ih _)
      · exact le_refl _

theorem digit_loop_fuel_source (fuel : Nat) (l : Lexer) :
    (digit_loop_fuel fuel l).source = l.source := by
  induction fuel generalizing l with
  | zero => rfl
  | succ n ih =>
      rw [digit_loop_fuel]
      split
      · rw [ih, advanceL_source]
      · rfl

theorem digit_loop_fuel_position_le (fuel : Nat) (l : Lexer) :
    l.position ≤ (digit_loop_fuel fuel l).position := by
  induction fuel generalizing l with
  | zero => exact le_refl _
  | succ n ih =>
      rw [digit_loop_fuel]
      split
      · exact le_trans (advanceL_position_le l) (ih _)
      · exact le_refl _

theorem string_loop_fuel_source (fuel : Nat) (l : Lexer) :
    (string_loop_fuel fuel l).source = l.source := by
  induction fuel generalizing l with
  | zero => rfl
  | succ n ih =>
      rw [string_loop_fuel]
      split
      · split
        · rw [ih, advanceL_source, advanceL_source]
        · rw [ih, advanceL_source]
      · rfl

theorem string_loop_fuel_position_le (fuel : Nat) (l : Lexer) :
    l.position ≤ (string_loop_fuel fuel l).position := by
  induction fuel generalizing l with
  | zero => exact le_refl _
  | succ n ih =>
      rw [string_loop_fuel]
      split
      · split
        · exact le_trans (le_trans (advanceL_position_le l) (advanceL_position_le _)) (ih _)
        · exact le_trans (advanceL_position_le l) (ih _)
      · exact le_refl _

theorem string_loop_fuel_errors (fuel : Nat) (l : Lexer) :
    (string_loop_fuel fuel l).has_errors = l.has_errors ∧
    (string_loop_fuel fuel l).error_message = l.error_message := by
  induction fuel generalizing l with
  | zero => exact ⟨rfl, rfl⟩
  | succ n ih =>
      rw [string_loop_fuel]
      split
      · split
        · refine ⟨?_, ?_⟩
          · rw [(ih _).1, (advanceL_errors _).1, (advanceL_errors _).1]
          · rw [(ih _).2, (advanceL_errors _).2, (advanceL_errors _).2]
        · refine ⟨?_, ?_⟩
          · rw [(ih _).1, (advanceL_errors _).1]
          · rw [(ih _).2, (advanceL_errors _).2]
      · exact ⟨rfl, rfl⟩

theorem comment_loop_fuel_source (fuel : Nat) (l : Lexer) :
    (comment_loop_fuel fuel l).source = l.source := by
  induction fuel generalizing l with
  | zero => rfl
  | succ n ih =>
      rw [comment_loop_fuel]
      split
      · rw [ih, advanceL_source]
      · rfl

theorem comment_loop_fuel_position_le (fuel : Nat) (l : Lexer) :
    l.position ≤ (comment_loop_fuel fuel l).position := by
  induction fuel generalizing l with
  | zero => exact le_refl _
  | succ n ih =>
      rw [comment_loop_fuel]
      split
      · exact le_trans (advanceL_position_le l) (ih _)
      · exact le_refl _

theorem pos_lt_advanceL (l : Lexer) (h : l.position < l.source.length) :
    l.position < (advanceL l).position := by
  rw [advanceL_position_lt l h]; omega

/-- At a position at or past the end of the input, `lexer_next_token`
produces an end-of-file token without moving. -/
theorem lexer_next_token_at_end (l : Lexer) (h : l.source.length ≤ l.position) :
    (lexer_next_token l).1.type = .EOF := by
  unfold lexer_next_token
  rw [skip_whitespace_at_end l h, if_pos (by omega)]
  rfl

/-! ### C8 : unterminated strings and escaped quotes -/

/-- The remaining characters of a string literal contain no closing quote
under the lexer's escape rule (a backslash consumes the next character). -/
def unterminated : List Char → Bool
  | [] => true
  | c :: cs =>
      if c = '"' then false
      else if c = '\\' then
        match cs with
        | [] => true
        | _ :: rest => unterminated rest
      else unterminated cs

theorem current_char_of_lt (l : Lexer) (h : l.position < l.source.length) :
    current_char l = l.source.getD l.position nul := by
  unfold current_char
  rw [if_neg (by omega)]

theorem drop_cons_of_lt (xs : List Char) (n : Nat) (h : n < xs.length) :
    xs.drop n = xs.getD n nul :: xs.drop (n + 1) := by
  rw [List.getD_eq_getElem _ _ h]
  exact List.drop_eq_getElem_cons h

/-- If the rest of the source (under the escape rule) contains no closing
quote, the `read_string` scan loop runs to the very end of the input. -/
theorem string_loop_fuel_unterminated (fuel : Nat) (l : Lexer) (hn : nul ∉ l.source)
    (hu : unterminated (l.source.drop l.position) = true)
    (hle : l.position ≤ l.source.length)
    (hfuel : l.source.length - l.position ≤ fuel) :
    (string_loop_fuel fuel l).position = l.source.length := by
  induction fuel generalizing l with
  | zero =>
      have : l.position = l.source.length := by omega
      simpa [string_loop_fuel] using this
  | succ n ih =>
      rw [string_loop_fuel]
      split
      · rename_i hcond
        have hlt : l.position < l.source.length := current_char_ne_nul_lt l hcond.1
        have hdrop := drop_cons_of_lt l.source l.position hlt
        have hcurd : current_char l = l.source.getD l.position nul :=
          current_char_of_lt l hlt
        split
        · rename_i hb
          -- backslash: two advances
          have hcur : l.source.getD l.position nul = '\\' := by rw [← hcurd]; exact hb
          rw [hdrop, hcur] at hu
          rw [unterminated.eq_def] at hu
          simp only [] at hu
          rw [if_pos trivial] at hu
          have hsrc1 : (advanceL l).source = l.source := advanceL_source l
          have hsrc2 : (advanceL (advanceL l)).source = l.source := by
            rw [advanceL_source, advanceL_source]
          have hpos1 : (advanceL l).position = l.position + 1 := advanceL_position_lt l hlt
          by_cases h2 : l.position + 1 < l.source.length
          · have hpos2 : (advanceL (advanceL l)).position = l.position + 2 := by
              rw [advanceL_position_lt (advanceL l) (by rw [hsrc1, hpos1]; omega), hpos1]
            have hdrop2 := drop_cons_of_lt l.source (l.position + 1) h2
            rw [hdrop2] at hu
            have hres := ih (advanceL (advanceL l)) (by rw [hsrc2]; exact hn)
              (by rw [hsrc2, hpos2]; exact hu)
              (by rw [hsrc2, hpos2]; omega)
              (by rw [hsrc2, hpos2]; omega)
            rw [hsrc2] at hres
            exact hres
          · have hpos2 : (advanceL (advanceL l)).position = l.position + 1 := by
              show (advance (advanceL l)).2.position = l.position + 1
              unfold advance
              rw [if_pos (by rw [hsrc1, hpos1]; omega)]
              exact hpos1
            have hres := ih (advanceL (advanceL l)) (by rw [hsrc2]; exact hn)
              (by rw [hsrc2, hpos2, List.drop_eq_nil_of_le (by omega)]; rfl)
              (by rw [hsrc2, hpos2]; omega)
              (by rw [hsrc2, hpos2]; omega)
            rw [hsrc2] at hres
            exact hres
        · rename_i hb
          have hres := ih (advanceL l) (by rw [advanceL_source]; exact hn)
            (by
              rw [advanceL_source, advanceL_position_lt l hlt]
              rw [hdrop] at hu
              rw [unterminated.eq_def] at hu
              simp only [] at hu
              rw [if_neg (by rw [← hcurd]; exact hcond.2),
                  if_neg (by rw [← hcurd]; exact hb)] at hu
              exact hu)
            (by rw [advanceL_source, advanceL_position_lt l hlt]; omega)
            (by rw [advanceL_source, advanceL_position_lt l hlt]; omega)
          rw [advanceL_source] at hres
          exact hres
      · rename_i hcond
        rw [Classical.not_and_iff_or_not_not, not_not, not_not] at hcond
        rcases hcond with h | h
        · have : l.source.length ≤ l.position := by
            by_contra hc
            have hmem : l.source.getD l.position nul ∈ l.source := by
              rw [List.getD_eq_getElem _ _ (by omega)]
              exact List.getElem_mem _
            rw [← current_char_of_lt l (by omega), h] at hmem
            exact hn hmem
          omega
        · have hlt : l.position < l.source.length := by
            by_contra hc
            have : current_char l = nul := by unfold current_char; rw [if_pos (by omega)]
            rw [h] at this
            exact absurd this (by decide)
          have hdrop := drop_cons_of_lt l.source l.position hlt
          rw [hdrop, ← current_char_of_lt l hlt, h] at hu
          rw [unterminated.eq_def] at hu
          simp only [] at hu
          rw [if_pos trivial] at hu
          exact absurd hu (by decide)

theorem string_loop_unterminated (l : Lexer) (hn : nul ∉ l.source)
    (hu : unterminated (l.source.drop l.position) = true)
    (hle : l.position ≤ l.source.length) :
    (string_loop l).position = l.source.length := by
  unfold string_loop
  exact string_loop_fuel_unterminated (l.source.length - l.position) l hn hu hle (le_refl _)

/-- C8: while scanning a string literal a backslash consumes the
immediately following character (so an escaped quote does not terminate
the literal: the scan steps over both characters at once), and on every
input in which no closing quote appears before end of input `read_string`
yields an error token, records the lexer diagnostic, and leaves the
position at end of input, from where the next scan returns end-of-file. -/
theorem read_string_unterminated_and_escape :
    (∀ (fuel : Nat) (l : Lexer),
        l.source.getD l.position nul = '\\' → l.position < l.source.length →
        string_loop_fuel (fuel + 1) l = string_loop_fuel fuel (advanceL (advanceL l))) ∧
    (∀ l : Lexer, nul ∉ l.source → l.position < l.source.length →
        unterminated (l.source.drop (l.position + 1)) = true →
        (read_string l).1.type = .ERROR ∧
        (read_string l).1.value = none ∧
        (read_string l).2.has_errors = true ∧
        (read_string l).2.error_message = some "Unterminated string literal" ∧
        (read_string l).2.position = l.source.length ∧
        (lexer_next_token (read_string l).2).1.type = .EOF) := by
  constructor
  · intro fuel l hcur hlt
    have hb : current_char l = '\\' := by rw [current_char_of_lt l hlt]; exact hcur
    rw [string_loop_fuel, if_pos ⟨by rw [hb]; decide, by rw [hb]; decide⟩, if_pos hb]
  · intro l hn hlt hu
    have hsrc1 : (advanceL l).source = l.source := advanceL_source l
    have hpos1 : (advanceL l).position = l.position + 1 := advanceL_position_lt l hlt
    have hloop : (string_loop (advanceL l)).position = l.source.length := by
      have hres := string_loop_unterminated (advanceL l)
        (by rw [hsrc1]; exact hn)
        (by rw [hsrc1, hpos1]; exact hu)
        (by rw [hsrc1, hpos1]; omega)
      rw [hsrc1] at hres
      exact hres
    have hloopsrc : (string_loop (advanceL l)).source = l.source := by
      unfold string_loop
      rw [string_loop_fuel_source, hsrc1]
    have hcur2 : current_char (string_loop (advanceL l)) = nul := by
      unfold current_char
      rw [if_pos (by rw [hloopsrc, hloop])]
    have herr := string_loop_fuel_errors ((advanceL l).source.length - (advanceL l).position)
      (advanceL l)
    unfold read_string
    rw [if_neg (by rw [hcur2]; decide)]
    refine ⟨rfl, rfl, rfl, rfl, by simpa [lexer_error] using hloop, ?_⟩
    apply lexer_next_token_at_end
    show (string_loop (advanceL l)).source.length ≤ (string_loop (advanceL l)).position
    rw [hloopsrc, hloop]

/-- Witness for `read_string_unterminated_and_escape` at concrete inputs:
the scan of `\"` steps over the escaped quote, and `"abc` (no closing
quote) produces the error token with the recorded diagnostic. -/
theorem read_string_unterminated_and_escape_witness :
    (string_loop_fuel 3 (lexer_create ('\\' :: '"' :: [])) =
      string_loop_fuel 2 (advanceL (advanceL (lexer_create ('\\' :: '"' :: []))))) ∧
    ((read_string (lexer_create ('"' :: 'a' :: 'b' :: 'c' :: []))).1.type = .ERROR ∧
     (read_string (lexer_create ('"' :: 'a' :: 'b' :: 'c' :: []))).1.value = none ∧
     (read_string (lexer_create ('"' :: 'a' :: 'b' :: 'c' :: []))).2.has_errors = true ∧
     (read_string (lexer_create ('"' :: 'a' :: 'b' :: 'c' :: []))).2.error_message =
       some "Unterminated string literal" ∧
     (read_string (lexer_create ('"' :: 'a' :: 'b' :: 'c' :: []))).2.position =
       (lexer_create ('"' :: 'a' :: 'b' :: 'c' :: [])).source.length ∧
     (lexer_next_token (read_string (lexer_create ('"' :: 'a' :: 'b' :: 'c' :: []))).2).1.type =
       .EOF) :=
  ⟨read_string_unterminated_and_escape.1 2 (lexer_create ('\\' :: '"' :: []))
      (by decide) (by decide),
   read_string_unterminated_and_escape.2 (lexer_create ('"' :: 'a' :: 'b' :: 'c' :: []))
      (by decide) (by decide) (by decide)⟩

/-! ### C10 : the lexer always makes progress and reaches end-of-file -/

theorem ident_loop_source (l : Lexer) : (ident_loop l).source = l.source :=
  ident_loop_fuel_source _ l

theorem digit_loop_source (l : Lexer) : (digit_loop l).source = l.source :=
  digit_loop_fuel_source _ l

theorem string_loop_source (l : Lexer) : (string_loop l).source = l.source :=
  string_loop_fuel_source _ l

theorem comment_loop_source (l : Lexer) : (comment_loop l).source = l.source :=
  comment_loop_fuel_source _ l

theorem ident_loop_progress (l : Lexer)
    (h : is_identifier_char (current_char l) = true) :
    l.position < (ident_loop l).position := by
  have hne : current_char l ≠ nul := by
    intro he
    rw [he] at h
    exact absurd h (by decide)
  have hlt := current_char_ne_nul_lt l hne
  unfold ident_loop
  rw [show l.source.length - l.position = (l.source.length - l.position - 1) + 1 by omega,
      ident_loop_fuel, if_pos h]
  exact lt_of_lt_of_le (pos_lt_advanceL l hlt) (ident_loop_fuel_position_le _ _)

theorem digit_loop_progress (l : Lexer) (h : (current_char l).isDigit = true) :
    l.position < (digit_loop l).position := by
  have hne : current_char l ≠ nul := by
    intro he
    rw [he] at h
    exact absurd h (by decide)
  have hlt := current_char_ne_nul_lt l hne
  unfold digit_loop
  rw [show l.source.length - l.position = (l.source.length - l.position - 1) + 1 by omega,
      digit_loop_fuel, if_pos h]
  exact lt_of_lt_of_le (pos_lt_advanceL l hlt) (digit_loop_fuel_position_le _ _)

theorem comment_loop_progress (l : Lexer) (h1 : current_char l ≠ nul)
    (h2 : current_char l ≠ '\n') :
    l.position < (comment_loop l).position := by
  have hlt := current_char_ne_nul_lt l h1
  unfold comment_loop
  rw [show l.source.length - l.position = (l.source.length - l.position - 1) + 1 by omega,
      comment_loop_fuel, if_pos ⟨h1, h2⟩]
  exact lt_of_lt_of_le (pos_lt_advanceL l hlt) (comment_loop_fuel_position_le _ _)

theorem string_loop_position_le (l : Lexer) :
    l.position ≤ (string_loop l).position :=
  string_loop_fuel_position_le _ l

theorem read_string_progress (l : Lexer) (h : l.position < l.source.length) :
    l.position < (read_string l).2.position := by
  unfold read_string
  have h1 : l.position < (advanceL l).position := pos_lt_advanceL l h
  have h2 : (advanceL l).position ≤ (string_loop (advanceL l)).position :=
    string_loop_position_le _
  dsimp only
  split
  · exact lt_of_lt_of_le (lt_of_lt_of_le h1 h2) (advanceL_position_le _)
  · exact lt_of_lt_of_le h1 h2

theorem read_string_source (l : Lexer) : (read_string l).2.source = l.source := by
  unfold read_string
  dsimp only
  split
  · rw [advanceL_source, string_loop_source, advanceL_source]
  · show (lexer_error _ _).source = l.source
    unfold lexer_error
    rw [string_loop_source, advanceL_source]

theorem read_number_progress (l : Lexer) (h : (current_char l).isDigit = true) :
    l.position < (read_number l).2.position := by
  unfold read_number
  have h1 : l.position < (digit_loop l).position := digit_loop_progress l h
  have h2 : ∀ x : Lexer, x.position ≤
      (if current_char x = '.' then digit_loop (advanceL x) else x).position := by
    intro x
    split
    · exact le_trans (advanceL_position_le x) (digit_loop_fuel_position_le _ _)
    · exact le_refl _
  have h3 : ∀ x : Lexer, x.position ≤
      (if current_char x = 'f' then advanceL x else x).position := by
    intro x
    split
    · exact advanceL_position_le x
    · exact le_refl _
  exact lt_of_lt_of_le (lt_of_lt_of_le h1 (h2 _)) (h3 _)

theorem read_number_source (l : Lexer) : (read_number l).2.source = l.source := by
  unfold read_number
  have h2 : ∀ x : Lexer,
      (if current_char x = '.' then digit_loop (advanceL x) else x).source = x.source := by
    intro x
    split
    · rw [digit_loop_source, advanceL_source]
    · rfl
  have h3 : ∀ x : Lexer,
      (if current_char x = 'f' then advanceL x else x).source = x.source := by
    intro x
    split
    · rw [advanceL_source]
    · rfl
  rw [h3, h2, digit_loop_source]

theorem read_identifier_progress (l : Lexer)
    (h : is_identifier_char (current_char l) = true) :
    l.position < (read_identifier l).2.position :=
  ident_loop_progress l h

theorem read_identifier_source (l : Lexer) :
    (read_identifier l).2.source = l.source :=
  ident_loop_source l

theorem ident_char_of_alpha (c : Char) (h : c.isAlpha = true ∨ c = '_') :
    is_identifier_char c = true := by
  rcases h with h | h
  · unfold is_identifier_char Char.isAlphanum
    rw [h]
    rfl
  · unfold is_identifier_char
    rw [h]
    simp

/-- On a state not yet at end of input, the character dispatch of
`lexer_next_token` strictly advances the position and never modifies the
source text. -/
theorem next_token_core_step (l : Lexer) (hlt : l.position < l.source.length) :
    l.position < (next_token_core l).2.position ∧
    (next_token_core l).2.source = l.source := by
  unfold next_token_core
  by_cases h1 : current_char l = '\n'
  · rw [if_pos h1]
    exact ⟨pos_lt_advanceL l hlt, advanceL_source l⟩
  rw [if_neg h1]
  by_cases h2 : current_char l = '+'
  · rw [if_pos h2]
    exact ⟨pos_lt_advanceL l hlt, advanceL_source l⟩
  rw [if_neg h2]
  by_cases h3 : current_char l = '-'
  · rw [if_pos h3]
    exact ⟨pos_lt_advanceL l hlt, advanceL_source l⟩
  rw [if_neg h3]
  by_cases h4 : current_char l = '*'
  · rw [if_pos h4]
    exact ⟨pos_lt_advanceL l hlt, advanceL_source l⟩
  rw [if_neg h4]
  by_cases h5 : current_char l = '/'
  · rw [if_pos h5]
    exact ⟨pos_lt_advanceL l hlt, advanceL_source l⟩
  rw [if_neg h5]
  by_cases h6 : current_char l = '%'
  · rw [if_pos h6]
    exact ⟨pos_lt_advanceL l hlt, advanceL_source l⟩
  rw [if_neg h6]
  by_cases h7 : current_char l = '('
  · rw [if_pos h7]
    exact ⟨pos_lt_advanceL l hlt, advanceL_source l⟩
  rw [if_neg h7]
  by_cases h8 : current_char l = ')'
  · rw [if_pos h8]
    exact ⟨pos_lt_advanceL l hlt, advanceL_source l⟩
  rw [if_neg h8]
  by_cases h9 : current_char l = '['
  · rw [if_pos h9]
    exact ⟨pos_lt_advanceL l hlt, advanceL_source l⟩
  rw [if_neg h9]
  by_cases h10 : current_char l = ']'
  · rw [if_pos h10]
    exact ⟨pos_lt_advanceL l hlt, advanceL_source l⟩
  rw [if_neg h10]
  by_cases h11 : current_char l = '{'
  · rw [if_pos h11]
    exact ⟨pos_lt_advanceL l hlt, advanceL_source l⟩
  rw [if_neg h11]
  by_cases h12 : current_char l = '}'
  · rw [if_pos h12]
    exact ⟨pos_lt_advanceL l hlt, advanceL_source l⟩
  rw [if_neg h12]
  by_cases h13 : current_char l = ','
  · rw [if_pos h13]
    exact ⟨pos_lt_advanceL l hlt, advanceL_source l⟩
  rw [if_neg h13]
  by_cases h14 : current_char l = '.'
  · rw [if_pos h14]
    exact ⟨pos_lt_advanceL l hlt, advanceL_source l⟩
  rw [if_neg h14]
  by_cases h15 : current_char l = ':'
  · rw [if_pos h15]
    exact ⟨pos_lt_advanceL l hlt, advanceL_source l⟩
  rw [if_neg h15]
  by_cases h16 : current_char l = ';'
  · rw [if_pos h16]
    exact ⟨pos_lt_advanceL l hlt, advanceL_source l⟩
  rw [if_neg h16]
  by_cases h17 : current_char l = '='
  · rw [if_pos h17]
    by_cases hq17 : current_char (advanceL l) = '='
    · rw [if_pos hq17]
      exact ⟨lt_of_lt_of_le (pos_lt_advanceL l hlt) (advanceL_position_le _),
        (advanceL_source _).trans (advanceL_source l)⟩
    · rw [if_neg hq17]
      exact ⟨pos_lt_advanceL l hlt, advanceL_source l⟩
  rw [if_neg h17]
  by_cases h18 : current_char l = '!'
  · rw [if_pos h18]
    by_cases hq18 : current_char (advanceL l) = '='
    · rw [if_pos hq18]
      exact ⟨lt_of_lt_of_le (pos_lt_advanceL l hlt) (advanceL_position_le _),
        (advanceL_source _).trans (advanceL_source l)⟩
    · rw [if_neg hq18]
      exact ⟨pos_lt_advanceL l hlt, advanceL_source l⟩
  rw [if_neg h18]
  by_cases h19 : current_char l = '<'
  · rw [if_pos h19]
    by_cases hq19 : current_char (advanceL l) = '='
    · rw [if_pos hq19]
      exact ⟨lt_of_lt_of_le (pos_lt_advanceL l hlt) (advanceL_position_le _),
        (advanceL_source _).trans (advanceL_source l)⟩
    · rw [if_neg hq19]
      exact ⟨pos_lt_advanceL l hlt, advanceL_source l⟩
  rw [if_neg h19]
  by_cases h20 : current_char l = '>'
  · rw [if_pos h20]
    by_cases hq20 : current_char (advanceL l) = '='
    · rw [if_pos hq20]
      exact ⟨lt_of_lt_of_le (pos_lt_advanceL l hlt) (advanceL_position_le _),
        (advanceL_source _).trans (advanceL_source l)⟩
    · rw [if_neg hq20]
      exact ⟨pos_lt_advanceL l hlt, advanceL_source l⟩
  rw [if_neg h20]
  by_cases h21 : current_char l = '#'
  · rw [if_pos h21]
    exact ⟨comment_loop_progress l (by rw [h21]; decide) (by rw [h21]; decide),
      comment_loop_source l⟩
  rw [if_neg h21]
  by_cases h22 : current_char l = '"'
  · rw [if_pos h22]
    exact ⟨read_string_progress l hlt, read_string_source l⟩
  rw [if_neg h22]
  by_cases h23 : (current_char l).isDigit = true
  · rw [if_pos h23]
    exact ⟨read_number_progress l h23, read_number_source l⟩
  rw [if_neg h23]
  by_cases h24 : (current_char l).isAlpha = true ∨ current_char l = '_'
  · rw [if_pos h24]
    exact ⟨read_identifier_progress l (ident_char_of_alpha _ h24), read_identifier_source l⟩
  rw [if_neg h24]
  exact ⟨pos_lt_advanceL l hlt, advanceL_source l⟩

/-- Every call of `lexer_next_token` either returns an end-of-file token
(with the position already at end of input) or strictly advances the
position; the source text itself is never modified. -/
theorem lexer_next_token_step (l : Lexer) :
    ((lexer_next_token l).1.type = .EOF ∧
      l.source.length ≤ (lexer_next_token l).2.position ∨
     l.position < (lexer_next_token l).2.position) ∧
    (lexer_next_token l).2.source = l.source := by
  have hle := skip_whitespace_position_le l
  have hsrc := skip_whitespace_source l
  unfold lexer_next_token
  generalize hG : skip_whitespace l = l1
  rw [hG] at hle hsrc
  by_cases hend : l1.position ≥ l1.source.length
  · rw [if_pos hend]
    exact ⟨Or.inl ⟨rfl, by rw [← hsrc]; exact hend⟩, hsrc⟩
  · rw [if_neg hend]
    have hcore := next_token_core_step l1 (by omega)
    exact ⟨Or.inr (lt_of_le_of_lt hle hcore.1), hcore.2.trans hsrc⟩

/-- The lexer state after `n` further calls of `lexer_next_token`. -/
def nth_state (l : Lexer) : Nat → Lexer
  | 0 => l
  | n + 1 => nth_state (lexer_next_token l).2 n

/-- The token returned by the `(n+1)`-st call of `lexer_next_token`. -/
def nth_token (l : Lexer) (n : Nat) : Token := (lexer_next_token (nth_state l n)).1

theorem nth_token_eof (n : Nat) :
    ∀ l : Lexer, l.source.length ≤ l.position + n → (nth_token l n).type = .EOF := by
  induction n with
  | zero =>
      intro l h
      exact lexer_next_token_at_end l (by omega)
  | succ n ih =>
      intro l h
      show (lexer_next_token (nth_state (lexer_next_token l).2 n)).1.type = .EOF
      apply ih
      have hstep := lexer_next_token_step l
      rw [hstep.2]
      rcases hstep.1 with ⟨_, hpos⟩ | hpos <;> omega

/-- C10: every call of `lexer_next_token` either returns an end-of-file
token or strictly advances the lexer position, and consequently on every
finite source repeated calls reach an end-of-file token after at most
`source.length - position` further calls. -/
theorem lexer_progress_and_termination :
    (∀ l : Lexer,
        (lexer_next_token l).1.type = .EOF ∨
        l.position < (lexer_next_token l).2.position) ∧
    (∀ (l : Lexer) (n : Nat), l.source.length ≤ l.position + n →
        (nth_token l n).type = .EOF) := by
  constructor
  · intro l
    rcases (lexer_next_token_step l).1 with ⟨he, _⟩ | hp
    · exact Or.inl he
    · exact Or.inr hp
  · intro l n h
    exact nth_token_eof n l h

/-- Witness for `lexer_progress_and_termination` at a concrete input:
scanning `a+ b` makes progress on the first call and reaches end-of-file
within ten calls. -/
theorem lexer_progress_and_termination_witness :
    ((lexer_next_token (lexer_create ('a' :: '+' :: ' ' :: 'b' :: []))).1.type = .EOF ∨
      (lexer_create ('a' :: '+' :: ' ' :: 'b' :: [])).position <
        (lexer_next_token (lexer_create ('a' :: '+' :: ' ' :: 'b' :: []))).2.position) ∧
    (nth_token (lexer_create ('a' :: '+' :: ' ' :: 'b' :: [])) 10).type = .EOF :=
  ⟨lexer_progress_and_termination.1 (lexer_create ('a' :: '+' :: ' ' :: 'b' :: [])),
   lexer_progress_and_termination.2 (lexer_create ('a' :: '+' :: ' ' :: 'b' :: []))
     10 (by decide)⟩

/-! ### The parser of `src/frontend/parser.c` and `src/frontend/ast.c` -/

/-- `ast_node_type_t` of `src/frontend/parser.h`. -/
inductive AstType where
  | PROGRAM | FUNCTION | VARIABLE | BINARY_OP | UNARY_OP | CALL
  | IF | WHILE | FOR | MATCH | RETURN | BLOCK | UNSAFE_BLOCK
  | LITERAL | IDENTIFIER | NUMBER | STRING | BOOLEAN | ARRAY | OBJECT
  | IMPORT | EXPRESSION_STMT
  deriving DecidableEq, Repr

mutual

/-- `ast_node_t` of `src/frontend/parser.h`: a node type, the ordered
children array, and the kind-specific payload of the union. -/
inductive Ast where
  | mk (type : AstType) (children : List Ast) (data : AstData)

/-- The payload union of `ast_node_t`.  Only the variants the source
actually reads or writes are distinguished; `noData` stands for a
zero-initialised unused payload. -/
inductive AstData where
  | noData
  | function (name : Option String) (parameters return_type body : Option Ast)
  | variableDecl (name : Option String) (type value : Option Ast) (is_const : Bool)
  | binaryOp (op : TokenType) (left right : Option Ast)
  | ifStmt (condition then_block else_block : Option Ast)
  | forStmt (var_name : Option String) (iterable body : Option Ast) (is_parallel : Bool)
  | whileStmt (condition body : Option Ast)
  | matchStmt (expression : Option Ast)
  | returnStmt (expression : Option Ast)
  | literal (value : Option String)
  | identifier (name : Option String)

end

/-- `create_number_node` of `ast.c`. -/
def create_number_node (value : String) : Ast :=
  .mk .NUMBER [] (.literal (some value))

/-- `create_string_node` of `ast.c`. -/
def create_string_node (value : String) : Ast :=
  .mk .STRING [] (.literal (some value))

/-- `create_identifier_node` of `ast.c`. -/
def create_identifier_node (name : String) : Ast :=
  .mk .IDENTIFIER [] (.identifier (some name))

/-- `create_boolean_node` of `ast.c`. -/
def create_boolean_node (value : Bool) : Ast :=
  .mk .BOOLEAN [] (.literal (some (if value then "true" else "false")))

/-- `parse_parameter_list` of `ast.c` (a `TODO` stub: returns an empty
block node and consumes no tokens). -/
def parse_parameter_list : Ast := .mk .BLOCK [] .noData

/-- `parse_type` of `ast.c` (a `TODO` stub: returns the identifier node
`auto` and consumes no tokens). -/
def parse_type : Ast := create_identifier_node "auto"

/-- `parse_return_statement` of `ast.c` (a `TODO` stub: returns an empty
return node and consumes no tokens). -/
def parse_return_statement : Ast := .mk .RETURN [] (.returnStmt none)

/-- `parse_variable_declaration` of `ast.c` (a `TODO` stub). -/
def parse_variable_declaration : Ast :=
  .mk .VARIABLE [] (.variableDecl none none none false)

/-- `parse_import_statement` of `ast.c` (a `TODO` stub). -/
def parse_import_statement : Ast := .mk .IMPORT [] .noData

/-- `parse_expression_statement` of `ast.c` (a `TODO` stub: returns an
empty expression-statement node and consumes no tokens). -/
def parse_expression_statement : Ast := .mk .EXPRESSION_STMT [] .noData

/-- `parse_match_case` of `ast.c` (a `TODO` stub). -/
def parse_match_case : Ast := .mk .BLOCK [] .noData

/-- `parse_array_literal` of `ast.c` (a `TODO` stub). -/
def parse_array_literal : Ast := .mk .ARRAY [] .noData

/-- `parse_object_literal` of `ast.c` (a `TODO` stub). -/
def parse_object_literal : Ast := .mk .OBJECT [] .noData

/-- `parse_block` of `parser.c` (a `TODO` stub: returns an empty block
node and consumes no tokens). -/
def parse_block : Ast := .mk .BLOCK [] .noData

/-- `parse_error_t` of `parser.h`. -/
structure ParseErr where
  message : String
  line : Nat
  column : Nat
  deriving DecidableEq, Repr

/-- The fields of the global `parser_t` state that the parsing routines
read and write (`tokens`, `token_count`, `current` and the error list;
the error list's capacity is the 100 set by `parser_init`). -/
structure PState where
  tokens : List Token
  current : Nat
  errors : List ParseErr
  deriving DecidableEq, Repr

/-- The error-list capacity allocated by `parser_init`. -/
def parser_error_capacity : Nat := 100

/-- Fallback token for the out-of-range index computations of `peek`
(the C code indexes `tokens[token_count - 1]`, which for an empty token
array is undefined behaviour; it is never reached by the routines
below on a non-empty token array). -/
def out_of_range_token : Token := ⟨.EOF, none, 0, 0⟩

/-- `peek` of `parser.c`. -/
def peek (st : PState) : Token :=
  if st.current ≥ st.tokens.length then
    st.tokens.getD (st.tokens.length - 1) out_of_range_token
  else st.tokens.getD st.current out_of_range_token

/-- `is_at_end` of `parser.c`. -/
def p_is_at_end (st : PState) : Bool :=
  st.current ≥ st.tokens.length ∨ (peek st).type = .EOF

/-- `advance` of `parser.c` (the returned `tokens[current - 1]` is read
only through `consume`, which is modelled below by reading `peek` before
advancing — the same token). -/
def p_advance (st : PState) : PState :=
  if p_is_at_end st then st else { st with current := st.current + 1 }

/-- `check` of `parser.c`. -/
def p_check (type : TokenType) (st : PState) : Bool :=
  if p_is_at_end st then false else (peek st).type = type

/-- `match` of `parser.c` (named `p_match` here; returns whether the
token was consumed, together with the new state). -/
def p_match (type : TokenType) (st : PState) : Bool × PState :=
  if p_check type st then (true, p_advance st) else (false, st)

/-- `add_error` of `parser.c`: appends to the error list unless the
capacity is exhausted, in which case the diagnostic is dropped. -/
def add_error (st : PState) (message : String) : PState :=
  if st.errors.length ≥ parser_error_capacity then st
  else { st with errors :=
    st.errors ++ [⟨message, (peek st).line, (peek st).column⟩] }

/-- `consume` of `parser.c`: on a match returns the consumed token and
advances, otherwise records the diagnostic and returns `NULL`. -/
def consume (type : TokenType) (message : String) (st : PState) :
    Option Token × PState :=
  if p_check type st then (some (peek st), p_advance st)
  else (none, add_error st message)

/-- `get_operator_precedence` of `parser.c`. -/
def get_operator_precedence : TokenType → Nat
  | .OR => 1
  | .AND => 2
  | .EQ | .NE => 3
  | .LT | .LE | .GT | .GE => 4
  | .PLUS | .MINUS => 5
  | .MULTIPLY | .DIVIDE | .MODULO => 6
  | .POWER => 7
  | _ => 0

/-- `is_right_associative` of `parser.c`. -/
def is_right_associative (type : TokenType) : Bool := type = .POWER

/-- Result of a fueled parsing routine: `oom` means the fuel ran out
(used to express that the underlying C loop or recursion does not
terminate), `crash` models a `NULL`-pointer dereference (undefined
behaviour in the C code), and `ok` is a normal return. -/
inductive PRes (α : Type) where
  | oom : PRes α
  | crash : PRes α
  | ok : α → PRes α
  deriving DecidableEq, Repr

mutual

/-- `parse_primary` of `parser.c`. -/
def parse_primary : Nat → PState → PRes (Option Ast × PState)
  | 0, _ => .oom
  | fuel + 1, st =>
      match (peek st).type with
      | .NUMBER =>
          match (peek st).value with
          | none => .crash
          | some v => .ok (some (create_number_node v), p_advance st)
      | .STRING =>
          match (peek st).value with
          | none => .crash
          | some v => .ok (some (create_string_node v), p_advance st)
      | .IDENTIFIER =>
          match (peek st).value with
          | none => .crash
          | some v => .ok (some (create_identifier_node v), p_advance st)
      | .TRUE => .ok (some (create_boolean_node true), p_advance st)
      | .FALSE => .ok (some (create_boolean_node false), p_advance st)
      | .LEFT_PAREN =>
          match parse_expression fuel (p_advance st) with
          | .oom => .oom
          | .crash => .crash
          | .ok (expr, st1) =>
              let (_, st2) := consume .RIGHT_PAREN "Expected ')' after expression" st1
              .ok (expr, st2)
      | .LEFT_BRACKET => .ok (some parse_array_literal, st)
      | .LEFT_BRACE => .ok (some parse_object_literal, st)
      | _ => .ok (none, add_error st "Unexpected token in expression")

/-- `parse_expression` of `parser.c`:
`parse_binary(parse_primary(), 0)`. -/
def parse_expression : Nat → PState → PRes (Option Ast × PState)
  | 0, _ => .oom
  | fuel + 1, st =>
      match parse_primary fuel st with
      | .oom => .oom
      | .crash => .crash
      | .ok (left, st1) => parse_binary fuel left 0 st1

/-- The `while (true)` loop of `parse_binary` of `parser.c`.  One
evaluation of the body per fuel unit; note that the loop leaves only
when the next token's precedence is *strictly below* `min_precedence`,
and that the recursive right-hand re-parse always uses
`precedence + 1`. -/
def parse_binary : Nat → Option Ast → Nat → PState → PRes (Option Ast × PState)
  | 0, _, _, _ => .oom
  | fuel + 1, left, min_precedence, st =>
      let op_token := peek st
      let precedence := get_operator_precedence op_token.type
      if precedence < min_precedence then .ok (left, st)
      else
        let st1 := p_advance st
        match parse_primary fuel st1 with
        | .oom => .oom
        | .crash => .crash
        | .ok (right0, st2) =>
            let next_op := peek st2
            let next_precedence := get_operator_precedence next_op.type
            let right_res :=
              if precedence < next_precedence ∨
                  (precedence = next_precedence ∧ is_right_associative op_token.type) then
                parse_binary fuel right0 (precedence + 1) st2
              else .ok (right0, st2)
            match right_res with
            | .oom => .oom
            | .crash => .crash
            | .ok (right, st3) =>
                let binary_node := Ast.mk .BINARY_OP [] (.binaryOp op_token.type left right)
                parse_binary fuel (some binary_node) min_precedence st3

end

/-- `parse_function` of `parser.c`.  The name token is dereferenced
unconditionally (`strdup(name_token->value)`), which crashes when
`consume` returned `NULL` or the token carries no lexeme. -/
def parse_function (st : PState) : PRes (Ast × PState) :=
  let (_, st1) := consume .FUNC "Expected 'func'" st
  let (name_token, st2) := consume .IDENTIFIER "Expected function name" st1
  match name_token with
  | none => .crash
  | some tk =>
      match tk.value with
      | none => .crash
      | some nm =>
          let (_, st3) := consume .LEFT_PAREN "Expected '(' after function name" st2
          let parameters := parse_parameter_list
          let (_, st4) := consume .RIGHT_PAREN "Expected ')' after parameters" st3
          let arrow := p_match .ARROW st4
          let return_type := if arrow.1 then some parse_type else none
          let (_, st6) := consume .COLON "Expected ':' before function body" arrow.2
          let body := parse_block
          .ok (.mk .FUNCTION []
            (.function (some nm) (some parameters) return_type (some body)), st6)

mutual

/-- `parse_statement` of `parser.c`. -/
def parse_statement : Nat → PState → PRes (Ast × PState)
  | 0, _ => .oom
  | fuel + 1, st =>
      match (peek st).type with
      | .FUNC => parse_function st
      | .IF => parse_if_statement fuel st
      | .FOR => parse_for_statement fuel st
      | .PARALLEL => parse_for_statement fuel st
      | .WHILE => parse_while_statement fuel st
      | .MATCH => parse_match_statement fuel st
      | .RETURN => .ok (parse_return_statement, st)
      | .VAR => .ok (parse_variable_declaration, st)
      | .CONST => .ok (parse_variable_declaration, st)
      | .IMPORT => .ok (parse_import_statement, st)
      | .LEFT_BRACE => .ok (parse_block, st)
      | _ => .ok (parse_expression_statement, st)

/-- `parse_if_statement` of `parser.c`. -/
def parse_if_statement : Nat → PState → PRes (Ast × PState)
  | 0, _ => .oom
  | fuel + 1, st =>
      let (_, st1) := consume .IF "Expected 'if'" st
      match parse_expression fuel st1 with
      | .oom => .oom
      | .crash => .crash
      | .ok (condition, st2) =>
          let (_, st3) := consume .COLON "Expected ':' after if condition" st2
          let then_block := parse_block
          let elifm := p_match .ELIF st3
          if elifm.1 then
            match parse_if_statement fuel elifm.2 with
            | .oom => .oom
            | .crash => .crash
            | .ok (else_node, st4) =>
                .ok (.mk .IF []
                  (.ifStmt condition (some then_block) (some else_node)), st4)
          else
            let elsem := p_match .ELSE elifm.2
            if elsem.1 then
              let (_, st5) := consume .COLON "Expected ':' after else" elsem.2
              let else_block := parse_block
              .ok (.mk .IF []
                (.ifStmt condition (some then_block) (some else_block)), st5)
            else
              .ok (.mk .IF [] (.ifStmt condition (some then_block) none), elsem.2)

/-- `parse_for_statement` of `parser.c` (also entered for `parallel`). -/
def parse_for_statement : Nat → PState → PRes (Ast × PState)
  | 0, _ => .oom
  | fuel + 1, st =>
      let parm := p_match .PARALLEL st
      let is_parallel := parm.1
      let (_, st1) := consume .FOR "Expected 'for'" parm.2
      let (var_token, st2) := consume .IDENTIFIER "Expected variable name" st1
      match var_token with
      | none => .crash
      | some tk =>
          match tk.value with
          | none => .crash
          | some nm =>
              let (_, st3) := consume .IN "Expected 'in' after for variable" st2
              match parse_expression fuel st3 with
              | .oom => .oom
              | .crash => .crash
              | .ok (iterable, st4) =>
                  let (_, st5) := consume .COLON "Expected ':' after for expression" st4
                  let body := parse_block
                  .ok (.mk .FOR []
                    (.forStmt (some nm) iterable (some body) is_parallel), st5)

/-- `parse_while_statement` of `parser.c`. -/
def parse_while_statement : Nat → PState → PRes (Ast × PState)
  | 0, _ => .oom
  | fuel + 1, st =>
      let (_, st1) := consume .WHILE "Expected 'while'" st
      match parse_expression fuel st1 with
      | .oom => .oom
      | .crash => .crash
      | .ok (condition, st2) =>
          let (_, st3) := consume .COLON "Expected ':' after while condition" st2
          let body := parse_block
          .ok (.mk .WHILE [] (.whileStmt condition (some body)), st3)

/-- `parse_match_statement` of `parser.c`. -/
def parse_match_statement : Nat → PState → PRes (Ast × PState)
  | 0, _ => .oom
  | fuel + 1, st =>
      let (_, st1) := consume .MATCH "Expected 'match'" st
      match parse_expression fuel st1 with
      | .oom => .oom
      | .crash => .crash
      | .ok (expression, st2) =>
          let (_, st3) := consume .COLON "Expected ':' after match expression" st2
          let (_, st4) := consume .LEFT_BRACE "Expected '\x7b' to start match cases" st3
          match parse_match_cases fuel [] st4 with
          | .oom => .oom
          | .crash => .crash
          | .ok (cases, st5) =>
              let (_, st6) := consume .RIGHT_BRACE "Expected '\x7d' after match cases" st5
              .ok (.mk .MATCH cases (.matchStmt expression), st6)

/-- The match-case loop inside `parse_match_statement` of `parser.c`
(`parse_match_case` is a stub consuming no tokens, so this loop spins
whenever the next token is neither `}` nor end of input). -/
def parse_match_cases : Nat → List Ast → PState → PRes (List Ast × PState)
  | 0, _, _ => .oom
  | fuel + 1, children, st =>
      if ¬ p_check .RIGHT_BRACE st ∧ ¬ p_is_at_end st then
        parse_match_cases fuel (children ++ [parse_match_case]) st
      else .ok (children, st)

end

/-- The top-level `while (!is_at_end())` loop of `parse` of `parser.c`;
`children` accumulates `add_child(g_parser.root, stmt)`. -/
def parse_loop : Nat → PState → List Ast → PRes (Option Ast × PState)
  | 0, _, _ => .oom
  | fuel + 1, st, children =>
      if ¬ p_is_at_end st then
        match parse_statement fuel st with
        | .oom => .oom
        | .crash => .crash
        | .ok (stmt, st1) => parse_loop fuel st1 (children ++ [stmt])
      else
        if st.errors.length > 0 then .ok (none, st)
        else .ok (some (.mk .PROGRAM children .noData), st)

/-- `parse` of `parser.c`: parses all top-level statements, then returns
`NULL` instead of the root node when any diagnostic was recorded. -/
def parse (fuel : Nat) (tokens : List Token) : PRes (Option Ast × PState) :=
  parse_loop fuel ⟨tokens, 0, []⟩ []

/-! ### Facts about the parser state helpers -/

theorem p_advance_tokens (st : PState) : (p_advance st).tokens = st.tokens := by
  unfold p_advance
  split <;> rfl

theorem add_error_tokens (st : PState) (m : String) :
    (add_error st m).tokens = st.tokens := by
  unfold add_error
  split <;> rfl

theorem peek_mem (st : PState) :
    peek st ∈ st.tokens ∨ peek st = out_of_range_token := by
  unfold peek
  split
  · rcases htok : st.tokens with _ | ⟨t, ts⟩
    · right
      rfl
    · left
      rw [← htok, List.getD_eq_getElem _ _ (by rw [htok]; simp)]
      exact List.getElem_mem _
  · left
    rename_i hlt
    rw [List.getD_eq_getElem _ _ (by omega)]
    exact List.getElem_mem _

/-- No literal or identifier token carries a `NULL` lexeme (rules out the
`strdup(NULL)` crashes of `parse_primary`). -/
def tokens_value_safe (tokens : List Token) : Bool :=
  tokens.all fun t =>
    match t.type, t.value with
    | .NUMBER, none => false
    | .STRING, none => false
    | .IDENTIFIER, none => false
    | _, _ => true

theorem safe_peek_value (st : PState)
    (hsafe : tokens_value_safe st.tokens = true)
    (ht : (peek st).type = .NUMBER ∨ (peek st).type = .STRING ∨
          (peek st).type = .IDENTIFIER) :
    (peek st).value ≠ none := by
  intro hv
  rcases peek_mem st with hmem | hout
  · rw [tokens_value_safe, List.all_eq_true] at hsafe
    have := hsafe (peek st) hmem
    rcases ht with h | h | h <;> rw [h, hv] at this <;> exact absurd this (by decide)
  · rcases ht with h | h | h <;> rw [hout] at h <;> exact absurd h (by decide)

/-! ### C2 : `parse_expression` never terminates

`parse_binary(left, 0)` can only leave its loop when the precedence of
the token at hand is strictly below `min_precedence`; every precedence is
`≥ 0`, so at the top level (`min_precedence = 0`, as called by
`parse_expression`) the loop never exits: it consumes the terminating
token as if it were an operator, records "Unexpected token in
expression", and spins forever. -/

theorem parse_min_zero_never_returns (fuel : Nat) :
    (∀ st : PState, tokens_value_safe st.tokens = true →
        parse_primary fuel st = .oom ∨
        ∃ a st', parse_primary fuel st = .ok (a, st') ∧ st'.tokens = st.tokens) ∧
    (∀ st : PState, tokens_value_safe st.tokens = true →
        parse_expression fuel st = .oom) ∧
    (∀ (st : PState) (left : Option Ast) (min_precedence : Nat),
        tokens_value_safe st.tokens = true →
        parse_binary fuel left min_precedence st = .oom ∨
        (0 < min_precedence ∧
          ∃ a st', parse_binary fuel left min_precedence st = .ok (a, st') ∧
            st'.tokens = st.tokens)) := by
  induction fuel with
  | zero =>
      refine ⟨fun st _ => Or.inl rfl, fun st _ => rfl,
        fun st left mp _ => Or.inl rfl⟩
  | succ n ih =>
      obtain ⟨ihP, ihE, ihB⟩ := ih
      have stepP : ∀ st : PState, tokens_value_safe st.tokens = true →
          parse_primary (n + 1) st = .oom ∨
          ∃ a st', parse_primary (n + 1) st = .ok (a, st') ∧ st'.tokens = st.tokens := by
        intro st hsafe
        rw [parse_primary]
        split
        · -- NUMBER
          rename_i htype
          split
          · rename_i hval
            exact absurd hval (safe_peek_value st hsafe (Or.inl htype))
          · exact Or.inr ⟨_, _, rfl, p_advance_tokens st⟩
        · -- STRING
          rename_i htype
          split
          · rename_i hval
            exact absurd hval (safe_peek_value st hsafe (Or.inr (Or.inl htype)))
          · exact Or.inr ⟨_, _, rfl, p_advance_tokens st⟩
        · -- IDENTIFIER
          rename_i htype
          split
          · rename_i hval
            exact absurd hval (safe_peek_value st hsafe (Or.inr (Or.inr htype)))
          · exact Or.inr ⟨_, _, rfl, p_advance_tokens st⟩
        · exact Or.inr ⟨_, _, rfl, p_advance_tokens st⟩
        · exact Or.inr ⟨_, _, rfl, p_advance_tokens st⟩
        · -- LEFT_PAREN: the nested parse_expression at min_precedence 0 spins
          have hE := ihE (p_advance st) (by rw [p_advance_tokens]; exact hsafe)
          rw [hE]
          exact Or.inl rfl
        · exact Or.inr ⟨_, _, rfl, rfl⟩
        · exact Or.inr ⟨_, _, rfl, rfl⟩
        · exact Or.inr ⟨_, _, rfl, add_error_tokens st _⟩
      have stepB : ∀ (st : PState) (left : Option Ast) (min_precedence : Nat),
          tokens_value_safe st.tokens = true →
          parse_binary (n + 1) left min_precedence st = .oom ∨
          (0 < min_precedence ∧
            ∃ a st', parse_binary (n + 1) left min_precedence st = .ok (a, st') ∧
              st'.tokens = st.tokens) := by
        intro st left mp hsafe
        rw [parse_binary]
        by_cases hp : get_operator_precedence (peek st).type < mp
        · rw [if_pos hp]
          exact Or.inr ⟨by omega, _, _, rfl, rfl⟩
        · rw [if_neg hp]
          dsimp only
          have hsafe1 : tokens_value_safe (p_advance st).tokens = true := by
            rw [p_advance_tokens]; exact hsafe
          rcases ihP (p_advance st) hsafe1 with hP | ⟨right0, st2, hP, htok2⟩
          · rw [hP]
            exact Or.inl rfl
          · rw [hP]
            have htok2' : st2.tokens = st.tokens := htok2.trans (p_advance_tokens st)
            have hsafe2 : tokens_value_safe st2.tokens = true := by
              rw [htok2']; exact hsafe
            dsimp only
            by_cases hcond : get_operator_precedence (peek st).type <
                  get_operator_precedence (peek st2).type ∨
                (get_operator_precedence (peek st).type =
                    get_operator_precedence (peek st2).type ∧
                  is_right_associative (peek st).type = true)
            · rw [if_pos hcond]
              rcases ihB st2 right0 (get_operator_precedence (peek st).type + 1) hsafe2
                with hB | ⟨_, a3, st3, hB, htok3⟩
              · rw [hB]
                exact Or.inl rfl
              · rw [hB]
                dsimp only
                have hsafe3 : tokens_value_safe st3.tokens = true := by
                  rw [htok3, htok2']; exact hsafe
                rcases ihB st3 _ mp hsafe3 with hB2 | ⟨hmp, a4, st4, hB2, htok4⟩
                · rw [hB2]
                  exact Or.inl rfl
                · rw [hB2]
                  exact Or.inr ⟨hmp, a4, st4, rfl,
                    htok4.trans (htok3.trans htok2')⟩
            · rw [if_neg hcond]
              dsimp only
              rcases ihB st2 _ mp hsafe2 with hB2 | ⟨hmp, a4, st4, hB2, htok4⟩
              · rw [hB2]
                exact Or.inl rfl
              · rw [hB2]
                exact Or.inr ⟨hmp, a4, st4, rfl, htok4.trans htok2'⟩
      refine ⟨stepP, ?_, stepB⟩
      intro st hsafe
      rw [parse_expression]
      rcases ihP st hsafe with hP | ⟨a, st', hP, htok⟩
      · rw [hP]
      · rw [hP]
        rcases ihB st' a 0 (by rw [htok]; exact hsafe) with hB | ⟨h0, _⟩
        · exact hB
        · exact absurd h0 (by omega)

/-- The token sequence of `2 + 3 * 4`. -/
def c2_add_mul_tokens : List Token :=
  [⟨.NUMBER, some "2", 1, 1⟩, ⟨.PLUS, some "+", 1, 3⟩, ⟨.NUMBER, some "3", 1, 5⟩,
   ⟨.MULTIPLY, some "*", 1, 7⟩, ⟨.NUMBER, some "4", 1, 9⟩, ⟨.EOF, none, 1, 10⟩]

/-- The token sequence of `2 ^ 3 ^ 2`. -/
def c2_pow_tokens : List Token :=
  [⟨.NUMBER, some "2", 1, 1⟩, ⟨.POWER, some "^", 1, 3⟩, ⟨.NUMBER, some "3", 1, 5⟩,
   ⟨.POWER, some "^", 1, 7⟩, ⟨.NUMBER, some "2", 1, 9⟩, ⟨.EOF, none, 1, 10⟩]

/-- `add(2, mul(3, 4))` — the tree the claim expects for `2 + 3 * 4`. -/
def c2_add_mul_tree : Ast :=
  .mk .BINARY_OP [] (.binaryOp .PLUS (some (create_number_node "2"))
    (some (.mk .BINARY_OP [] (.binaryOp .MULTIPLY (some (create_number_node "3"))
      (some (create_number_node "4"))))))

/-- `pow(pow(2, 3), 2)` — the left-associated tree the code builds for
`2 ^ 3 ^ 2`. -/
def c2_pow_wrong_tree : Ast :=
  .mk .BINARY_OP [] (.binaryOp .POWER
    (some (.mk .BINARY_OP [] (.binaryOp .POWER (some (create_number_node "2"))
      (some (create_number_node "3")))))
    (some (create_number_node "2")))

/-- `pow(2, pow(3, 2))` — the right-associated tree the claim expects for
`2 ^ 3 ^ 2`. -/
def c2_pow_claimed_tree : Ast :=
  .mk .BINARY_OP [] (.binaryOp .POWER (some (create_number_node "2"))
    (some (.mk .BINARY_OP [] (.binaryOp .POWER (some (create_number_node "3"))
      (some (create_number_node "2"))))))

/-- C2 (code_bug evidence): `parse_expression` never returns on any
value-safe token sequence (the `parse_binary` loop at `min_precedence = 0`
cannot exit, because no precedence is below 0); at `min_precedence = 1` —
the smallest value at which the loop can exit — the precedence table does
give `add(2, mul(3,4))` for `2 + 3 * 4`, but `2 ^ 3 ^ 2` is associated to
the LEFT (the right-associative re-parse uses `precedence + 1`), which is
not the `pow(2, pow(3, 2))` the claim requires. -/
theorem precedence_climbing_diverges_and_misassociates :
    (∀ (fuel : Nat) (st : PState), tokens_value_safe st.tokens = true →
        parse_expression fuel st = .oom) ∧
    parse_binary 100 (some (create_number_node "2")) 1 ⟨c2_add_mul_tokens, 1, []⟩ =
      .ok (some c2_add_mul_tree, ⟨c2_add_mul_tokens, 5, []⟩) ∧
    parse_binary 100 (some (create_number_node "2")) 1 ⟨c2_pow_tokens, 1, []⟩ =
      .ok (some c2_pow_wrong_tree, ⟨c2_pow_tokens, 5, []⟩) ∧
    c2_pow_wrong_tree ≠ c2_pow_claimed_tree := by
  refine ⟨fun fuel st h => (parse_min_zero_never_returns fuel).2.1 st h, rfl, rfl, ?_⟩
  intro h
  have hdis := congrArg (fun x => match x with
    | Ast.mk _ _ (.binaryOp _ _ (some (Ast.mk t _ _))) => t
    | _ => AstType.PROGRAM) h
  exact absurd hdis (by decide)

/-- Witness for the divergence half of
`precedence_climbing_diverges_and_misassociates`: on the concrete tokens
of `2 + 3 * 4` (which are value-safe), `parse_expression` runs out of any
amount of fuel we hand it. -/
theorem precedence_climbing_diverges_and_misassociates_witness :
    parse_expression 9 ⟨c2_add_mul_tokens, 0, []⟩ = .oom :=
  precedence_climbing_diverges_and_misassociates.1 9 ⟨c2_add_mul_tokens, 0, []⟩
    (by decide)

/-! ### C3 : `parse` discards the partial AST when any error was recorded -/

theorem parse_loop_none_iff_errors (fuel : Nat) :
    ∀ (st : PState) (children : List Ast) (ret : Option Ast) (st' : PState),
      parse_loop fuel st children = .ok (ret, st') →
      (ret = none ↔ st'.errors ≠ []) := by
  induction fuel with
  | zero =>
      intro st children ret st' h
      exact absurd h (fun hc => PRes.noConfusion hc)
  | succ n ih =>
      intro st children ret st' h
      rw [parse_loop] at h
      by_cases hend : ¬ p_is_at_end st = true
      · rw [if_pos hend] at h
        cases hps : parse_statement n st with
        | oom => rw [hps] at h; exact absurd h (fun hc => PRes.noConfusion hc)
        | crash => rw [hps] at h; exact absurd h (fun hc => PRes.noConfusion hc)
        | ok r =>
            obtain ⟨stmt, st1⟩ := r
            rw [hps] at h
            exact ih st1 (children ++ [stmt]) ret st' h
      · rw [if_neg hend] at h
        by_cases herr : st.errors.length > 0
        · rw [if_pos herr] at h
          injection h with h1
          rw [Prod.mk.injEq] at h1
          obtain ⟨hret, hst⟩ := h1
          subst hret
          subst hst
          constructor
          · intro _ hnil
            rw [hnil] at herr
            exact absurd herr (by simp)
          · intro _
            rfl
        · rw [if_neg herr] at h
          injection h with h1
          rw [Prod.mk.injEq] at h1
          obtain ⟨hret, hst⟩ := h1
          subst hret
          subst hst
          have hnil : st.errors = [] := List.eq_nil_of_length_eq_zero (by omega)
          constructor
          · intro hc
            exact absurd hc (fun hcc => Option.noConfusion hcc)
          · intro hne
            exact absurd hnil hne

/-- C3 (amended): whenever `parse` terminates, the returned AST is `NULL`
exactly when at least one syntax diagnostic was recorded — the parser
keeps parsing past errors and accumulates all diagnostics, but then
discards the best-effort AST instead of handing it to the caller. -/
theorem parse_returns_no_ast_iff_errors (fuel : Nat) (tokens : List Token)
    (ret : Option Ast) (st' : PState) (h : parse fuel tokens = .ok (ret, st')) :
    ret = none ↔ st'.errors ≠ [] :=
  parse_loop_none_iff_errors fuel ⟨tokens, 0, []⟩ [] ret st' h

/-- The token sequence of `func f` followed by end of input. -/
def c3_tokens : List Token :=
  [⟨.FUNC, some "func", 1, 1⟩, ⟨.IDENTIFIER, some "f", 1, 6⟩, ⟨.EOF, none, 1, 8⟩]

/-- The three diagnostics `parse` accumulates on `c3_tokens` (it does not
stop at the first error). -/
def c3_errors : List ParseErr :=
  [⟨"Expected '(' after function name", 1, 8⟩,
   ⟨"Expected ')' after parameters", 1, 8⟩,
   ⟨"Expected ':' before function body", 1, 8⟩]

/-- The parser state in which `parse` finishes on `c3_tokens`. -/
def c3_final_state : PState := ⟨c3_tokens, 2, c3_errors⟩

/-- Witness for `parse_returns_no_ast_iff_errors` at the concrete input
`func f`: parsing terminates with three accumulated diagnostics and no
AST. -/
theorem parse_returns_no_ast_iff_errors_witness :
    parse 10 c3_tokens = .ok (none, c3_final_state) ∧
    ((none : Option Ast) = none ↔ c3_final_state.errors ≠ []) :=
  ⟨rfl, parse_returns_no_ast_iff_errors 10 c3_tokens none c3_final_state rfl⟩

/-- Counterexample to C3 as stated: on `func f` the parser records three
syntax diagnostics while continuing to the end of the input, yet the
caller receives `NULL` (`none`) — not the partial AST the claim
promises. -/
theorem parse_discards_partial_ast_counterexample :
    parse 10 c3_tokens = .ok (none, c3_final_state) ∧
    c3_final_state.errors.length = 3 :=
  ⟨rfl, rfl⟩

/-! ### C1 : the pipeline never produces the claimed IR for `add` -/

/-- The token-collection loop of `tokenize_mode` of `src/main.c`
(`while ((token = lexer_next_token(lexer)) && token->type != TOKEN_EOF)`),
here collecting the tokens including the final end-of-file token; the
fuel bounds the number of calls. -/
def lex_all : Nat → Lexer → List Token
  | 0, _ => []
  | n + 1, l =>
      match lexer_next_token l with
      | (t, l') => if t.type = .EOF then [t] else t :: lex_all n l'

/-- The input source of the end-to-end claim. -/
def c1_source : String := "func add(a: i32, b: i32) -> i32: return a + b"

/-- The token sequence the lexer produces for `c1_source` (note `->` is
lexed as `-` `>`: the lexer never produces `TOKEN_ARROW`). -/
def c1_tokens : List Token :=
  [⟨.FUNC, some "func", 1, 1⟩, ⟨.IDENTIFIER, some "add", 1, 6⟩,
   ⟨.LEFT_PAREN, some "(", 1, 9⟩, ⟨.IDENTIFIER, some "a", 1, 10⟩,
   ⟨.COLON, some ":", 1, 11⟩, ⟨.IDENTIFIER, some "i32", 1, 13⟩,
   ⟨.COMMA, some ",", 1, 16⟩, ⟨.IDENTIFIER, some "b", 1, 18⟩,
   ⟨.COLON, some ":", 1, 19⟩, ⟨.IDENTIFIER, some "i32", 1, 21⟩,
   ⟨.RIGHT_PAREN, some ")", 1, 24⟩, ⟨.MINUS, some "-", 1, 26⟩,
   ⟨.GT, some ">", 1, 27⟩, ⟨.IDENTIFIER, some "i32", 1, 29⟩,
   ⟨.COLON, some ":", 1, 32⟩, ⟨.RETURN, some "return", 1, 34⟩,
   ⟨.IDENTIFIER, some "a", 1, 41⟩, ⟨.PLUS, some "+", 1, 43⟩,
   ⟨.IDENTIFIER, some "b", 1, 45⟩, ⟨.EOF, none, 1, 46⟩]

/-- The function node `parse_function` builds for `c1_tokens` before the
top-level loop gets stuck (parameters and body are the empty stub
nodes). -/
def c1_func_node : Ast :=
  .mk .FUNCTION [] (.function (some "add") (some parse_parameter_list) none
    (some parse_block))

/-- The two diagnostics recorded by `parse_function` on `c1_tokens`. -/
def c1_stuck_errors : List ParseErr :=
  [⟨"Expected ')' after parameters", 1, 10⟩,
   ⟨"Expected ':' before function body", 1, 10⟩]

/-- On `c1_tokens` the top-level parse loop is stuck at position 3: the
next token is an identifier, dispatched to the stub
`parse_expression_statement`, which consumes nothing. -/
theorem parse_loop_stuck_c1 (fuel : Nat) :
    ∀ (children : List Ast) (errs : List ParseErr),
      parse_loop fuel ⟨c1_tokens, 3, errs⟩ children = .oom := by
  induction fuel with
  | zero => intro children errs; rfl
  | succ n ih =>
      intro children errs
      rw [parse_loop]
      have hcond : ¬ p_is_at_end ⟨c1_tokens, 3, errs⟩ = true := fun hc =>
        Bool.noConfusion hc
      rw [if_pos hcond]
      rcases n with _ | m
      · rfl
      · have hs : parse_statement (m + 1) ⟨c1_tokens, 3, errs⟩ =
            .ok (parse_expression_statement, ⟨c1_tokens, 3, errs⟩) := rfl
        rw [hs]
        exact ih (children ++ [parse_expression_statement]) errs

/-- On the tokens of the end-to-end input, `parse` never terminates. -/
theorem parse_c1_tokens_oom : ∀ fuel : Nat, parse fuel c1_tokens = .oom := by
  intro fuel
  rcases fuel with _ | _ | f
  · rfl
  · rfl
  · show parse_loop (f + 2) ⟨c1_tokens, 0, []⟩ [] = .oom
    rw [parse_loop]
    have hcond : ¬ p_is_at_end ⟨c1_tokens, 0, []⟩ = true := fun hc =>
      Bool.noConfusion hc
    rw [if_pos hcond]
    have hs : parse_statement (f + 1) ⟨c1_tokens, 0, []⟩ =
        .ok (c1_func_node, ⟨c1_tokens, 3, c1_stuck_errors⟩) := rfl
    rw [hs]
    exact parse_loop_stuck_c1 (f + 1) [c1_func_node] c1_stuck_errors

/-- The fixed placeholder IR text printed by `frontend_mode` of
`src/main.c` for EVERY input file: the frontend mode never runs the
parser, the analyzer or any lowering. -/
def frontend_placeholder_ir (input_file target : String) : String :=
  "; GPLANG IR - Generated from " ++ input_file ++ "\n" ++
  "; Target: " ++ target ++ "\n" ++
  "\n" ++
  "func_begin @main\n" ++
  "    ; Placeholder IR for count_1m.gp\n" ++
  "    const_int 1000000\n" ++
  "    store %1, @count\n" ++
  "    call @Time.now\n" ++
  "    store %2, @start_time\n" ++
  "    \n" ++
  "loop_begin:\n" ++
  "    load %3, @i\n" ++
  "    load %4, @count\n" ++
  "    lt %5, %3, %4\n" ++
  "    branch %5, loop_body, loop_end\n" ++
  "    \n" ++
  "loop_body:\n" ++
  "    ; Loop body implementation\n" ++
  "    jump loop_begin\n" ++
  "    \n" ++
  "loop_end:\n" ++
  "    call @Time.now\n" ++
  "    store %6, @end_time\n" ++
  "    const_int 0\n" ++
  "    return %7\n" ++
  "func_end\n"

/-- `pat` occurs at the start of `s`. -/
def leads (pat s : List Char) : Bool :=
  match pat, s with
  | [], _ => true
  | _ :: _, [] => false
  | a :: pats, b :: bs => (a = b) && leads pats bs

/-- `pat` occurs as a contiguous run somewhere in `s`. -/
def occurs (pat s : List Char) : Bool :=
  match s with
  | [] => leads pat []
  | _ :: rest => leads pat s || occurs pat rest

/-- C1 (code_bug evidence): lexing `func add(a: i32, b: i32) -> i32:
return a + b` yields `c1_tokens`; on those tokens `parse` never
terminates, so the pipeline can never reach analysis or lowering; and the
`frontend_mode` entry point of `main.c` does not even call the parser —
it prints a fixed placeholder IR naming only `@main`, never a function
`add`. -/
theorem frontend_add_pipeline_never_produces_ir :
    lex_all 64 (lexer_create c1_source.data) = c1_tokens ∧
    (∀ fuel : Nat, parse fuel c1_tokens = .oom) ∧
    occurs "func_begin @main".data
      (frontend_placeholder_ir "add.gp" "x86_64").data = true ∧
    occurs "@add".data
      (frontend_placeholder_ir "add.gp" "x86_64").data = false := by
  refine ⟨?_, parse_c1_tokens_oom, ?_, ?_⟩
  · rfl
  · decide
  · decide

/-! ### The semantic analyzer of `src/frontend/semantic.c` -/

/-- `type_kind_t` of `src/frontend/semantic.h`. -/
inductive TypeKind where
  | VOID | INT32 | INT64 | FLOAT32 | FLOAT64 | BOOL | STRING
  | ARRAY | POINTER | FUNCTION | STRUCT | ENUM | OPTION | RESULT
  | VEC2 | VEC3 | VEC4 | PTR
  deriving DecidableEq, Repr

/-- `type_t` of `semantic.h`; of the payload union only
`data.function.return_type` is ever read by the analyzer, so the
embedding keeps just that field (`calloc` zero-initialises it to
`NULL`). -/
inductive TypeT where
  | mk (kind : TypeKind) (fn_return : Option TypeT)

/-- `create_type` of `semantic.c` (`calloc` leaves the union zeroed). -/
def create_type (kind : TypeKind) : TypeT := .mk kind none

/-- `create_function_type` of `semantic.c`. -/
def create_function_type : TypeT := create_type .FUNCTION

/-- `get_void_type` of `semantic.c` (a static `{TYPE_VOID, 0, 0}`). -/
def get_void_type : TypeT := .mk .VOID none

/-- `symbol_kind_t` of `semantic.h`. -/
inductive SymbolKind where
  | VARIABLE | FUNCTION | TYPE | CONSTANT
  deriving DecidableEq, Repr

/-- `symbol_t` of `semantic.h` (the ownership fields, never read by the
analyzer, are omitted). -/
structure Symbol where
  name : Option String
  kind : SymbolKind
  type : Option TypeT
  is_const : Bool

/-- `semantic_error_t` of `semantic.h` (`add_semantic_error` leaves line
and column 0 — a `TODO` in the source). -/
structure SemErr where
  message : String
  line : Nat
  column : Nat

/-- The fields of the global `semantic_analyzer_t` state the analyzer
reads and writes.  The scope chain (`current_scope` with its parent
pointers up to `global_scope`) is the list of symbol tables, innermost
first. -/
structure SemState where
  scopes : List (List Symbol)
  errors : List SemErr
  in_function : Bool
  current_function_return_type : Option TypeT

/-- The error-list capacity allocated by `semantic_init`. -/
def semantic_error_capacity : Nat := 100

/-- `add_semantic_error` of `semantic.c`: appends unless the capacity is
exhausted, in which case the diagnostic is dropped. -/
def add_semantic_error (st : SemState) (message : String) : SemState :=
  if st.errors.length ≥ semantic_error_capacity then st
  else { st with errors := st.errors ++ [⟨message, 0, 0⟩] }

/-- `lookup_symbol` of `semantic.c` — a `TODO` stub that returns `NULL`
for every scope chain and name, without searching anything. -/
def lookup_symbol (scopes : List (List Symbol)) (name : Option String) :
    Option Symbol :=
  none

/-- `lookup_symbol_local` of `semantic.c` — likewise a `TODO` stub
returning `NULL`. -/
def lookup_symbol_local (scopes : List (List Symbol)) (name : Option String) :
    Option Symbol :=
  none

/-- `create_symbol` of `semantic.c`. -/
def create_symbol (name : Option String) (kind : SymbolKind) : Symbol :=
  ⟨name, kind, none, false⟩

/-- The symbol-table capacity set by `create_symbol_table`. -/
def symbol_table_capacity : Nat := 16

/-- `add_symbol` of `semantic.c`, acting on the current (innermost)
scope: appends while the table has room, silently does nothing
otherwise. -/
def add_symbol (st : SemState) (sym : Symbol) : SemState :=
  match st.scopes with
  | [] => st
  | s :: rest =>
      if s.length < symbol_table_capacity then
        { st with scopes := (s ++ [sym]) :: rest }
      else st

/-- `types_compatible` of `semantic.c`:
`t1 && t2 && t1->kind == t2->kind`. -/
def types_compatible (t1 t2 : Option TypeT) : Bool :=
  match t1, t2 with
  | some (.mk k1 _), some (.mk k2 _) => k1 = k2
  | _, _ => false

/-- `resolve_type` of `semantic.c` — a `TODO` stub returning the void
type for every type node. -/
def resolve_type (type_node : Option Ast) : TypeT := get_void_type

/-- `get_expression_type` of `semantic.c` — a `TODO` stub returning the
void type for every expression (never `NULL`). -/
def get_expression_type (expr : Option Ast) : TypeT := get_void_type

/-- `is_binary_operator_valid` of `semantic.c` — a `TODO` stub returning
1. -/
def is_binary_operator_valid (op : TokenType) (l r : Option TypeT) : Bool := true

/-- `data.function.return_type` of a symbol's (possibly `NULL`) type. -/
def fn_return_of : Option TypeT → Option TypeT
  | some (.mk _ r) => r
  | none => none

/-- The rendering `printf`'s `%s` gives a name pointer (glibc prints
`(null)` for `NULL`). -/
def name_str (name : Option String) : String := name.getD "(null)"

/-- `analyze_identifier` of `semantic.c` (`set_expression_type` and
`check_ownership_rules` are no-op stubs). -/
def analyze_identifier (st : SemState) (name : Option String) : SemState :=
  match lookup_symbol st.scopes name with
  | some _ => st
  | none => add_semantic_error st ("Undefined identifier '" ++ name_str name ++ "'")

/-- `analyze_node` of `semantic.c` together with the per-kind analysis
functions it dispatches to (`analyze_program`, `analyze_function`,
`analyze_variable_declaration`, `analyze_binary_operation`,
`analyze_return_statement`, `analyze_block`; `analyze_unary_operation`,
`analyze_function_call` and the `if`/`for`/`while`/`match` analyses are
`TODO` stubs doing nothing).  The fuel decreases on every nested call; it
is an artifact of the embedding only — the C recursion is structural over
the finite AST. -/
def analyze_node : Nat → SemState → Ast → SemState
  | 0, st, _ => st
  | fuel + 1, st, .mk ty children data =>
      match ty, data with
      | .PROGRAM, _ => children.foldl (fun s c => analyze_node fuel s c) st
      | .FUNCTION, .function name params _ret body =>
          (match lookup_symbol st.scopes name with
           | some _ =>
               add_semantic_error st
                 ("Function '" ++ name_str name ++ "' already declared")
           | none =>
               let func_symbol : Symbol :=
                 { create_symbol name SymbolKind.FUNCTION with type := some create_function_type }
               let st1 := add_symbol st func_symbol
               let st2 := { st1 with
                 scopes := ([] :: st1.scopes)
                 in_function := true
                 current_function_return_type := fn_return_of func_symbol.type }
               let st4 := match params with
                 | some p => analyze_node fuel st2 p
                 | none => st2
               let st5 := match body with
                 | some b => analyze_node fuel st4 b
                 | none => st4
               { st5 with
                 scopes := st5.scopes.tail
                 in_function := st.in_function
                 current_function_return_type := st.current_function_return_type })
      | .FUNCTION, _ => st
      | .VARIABLE, .variableDecl name tyAnn value is_const =>
          (match lookup_symbol_local st.scopes name with
           | some _ =>
               add_semantic_error st
                 ("Variable '" ++ name_str name ++ "' already declared in this scope")
           | none =>
               let st1 := match value with
                 | some v => analyze_node fuel st v
                 | none => st
               let init_type : Option TypeT := match value with
                 | some v => some (get_expression_type (some v))
                 | none => none
               let var_type_opt : Option TypeT := match tyAnn with
                 | some t => some (resolve_type (some t))
                 | none => init_type
               match var_type_opt with
               | none =>
                   add_semantic_error st1
                     ("Cannot infer type for variable '" ++ name_str name ++ "'")
               | some var_type =>
                   if init_type.isSome ∧
                       types_compatible (some var_type) init_type = false then
                     add_semantic_error st1
                       ("Type mismatch in variable '" ++ name_str name ++ "' declaration")
                   else add_symbol st1 ⟨name, .VARIABLE, some var_type, is_const⟩)
      | .VARIABLE, _ => st
      | .BINARY_OP, .binaryOp op l r =>
          (let st1 := match l with
             | some x => analyze_node fuel st x
             | none => st
           let st2 := match r with
             | some x => analyze_node fuel st1 x
             | none => st1
           let left_type : Option TypeT := some (get_expression_type l)
           let right_type : Option TypeT := some (get_expression_type r)
           if left_type.isNone || right_type.isNone then
             add_semantic_error st2 "Cannot determine operand types for binary operation"
           else if is_binary_operator_valid op left_type right_type = false then
             add_semantic_error st2 "Invalid binary operation between types"
           else st2)
      | .BINARY_OP, _ => st
      | .RETURN, .returnStmt e =>
          (if st.in_function = false then
             add_semantic_error st "Return statement outside function"
           else
             let st1 := match e with
               | some x => analyze_node fuel st x
               | none => st
             let return_type : Option TypeT := match e with
               | some x => some (get_expression_type (some x))
               | none => some get_void_type
             if types_compatible st1.current_function_return_type return_type = false then
               add_semantic_error st1 "Return type mismatch"
             else st1)
      | .RETURN, _ => st
      | .UNARY_OP, _ => st
      | .CALL, _ => st
      | .IF, _ => st
      | .FOR, _ => st
      | .WHILE, _ => st
      | .MATCH, _ => st
      | .IDENTIFIER, .identifier name => analyze_identifier st name
      | .IDENTIFIER, _ => st
      | .BLOCK, _ => children.foldl (fun s c => analyze_node fuel s c) st
      | _, _ => children.foldl (fun s c => analyze_node fuel s c) st

/-- The `print` builtin installed by `add_builtin_functions` (the other
builtin helpers are `TODO` stubs adding nothing). -/
def print_symbol : Symbol := ⟨some "print", .FUNCTION, some create_function_type, false⟩

/-- The analyzer state produced by `semantic_init`: a global scope
containing only the `print` symbol. -/
def semantic_initial_state : SemState := ⟨[[print_symbol]], [], false, none⟩

/-- `semantic_analyze` of `semantic.c`: analyzes the AST from the initial
state and returns `-1` when any diagnostic was recorded, else `0`. -/
def semantic_analyze (fuel : Nat) (root : Ast) : Int × SemState :=
  let st := analyze_node fuel semantic_initial_state root
  (if st.errors.length > 0 then -1 else 0, st)

/-! ### C5 : identifier resolution is a stub that never finds anything -/

/-- `var x = 1` followed by a use of `x` in the same (global) scope. -/
def c5_ast : Ast :=
  .mk .PROGRAM
    [.mk .VARIABLE [] (.variableDecl (some "x") none (some (create_number_node "1")) false),
     .mk .IDENTIFIER [] (.identifier (some "x"))]
    .noData

/-- C5 (code_bug evidence): `lookup_symbol` returns `NULL` for every
scope chain and name — it never searches the current scope or any parent
— so the identifier `x`, although bound in the current scope by the
declaration just before it (the symbol IS in the scope of the final
state), is reported as an undefined identifier. -/
theorem identifier_resolution_stub_reports_bound_name :
    (∀ (scopes : List (List Symbol)) (name : Option String),
        lookup_symbol scopes name = none) ∧
    semantic_analyze 10 c5_ast =
      (-1, ⟨[[print_symbol, ⟨some "x", .VARIABLE, some get_void_type, false⟩]],
            [⟨"Undefined identifier 'x'", 0, 0⟩], false, none⟩) :=
  ⟨fun _ _ => rfl, rfl⟩

/-! ### C6 : same-scope redeclaration goes unreported -/

/-- `var x = 1` followed by `var x = 2` in the same (global) scope. -/
def c6_ast : Ast :=
  .mk .PROGRAM
    [.mk .VARIABLE [] (.variableDecl (some "x") none (some (create_number_node "1")) false),
     .mk .VARIABLE [] (.variableDecl (some "x") none (some (create_number_node "2")) false)]
    .noData

/-- C6 (code_bug evidence): `lookup_symbol_local` is a `TODO` stub
returning `NULL`, so redeclaring `x` in the very same scope records NO
diagnostic at all — analysis succeeds (result 0) and the scope ends up
holding two symbols named `x`. -/
theorem same_scope_redeclaration_unreported :
    semantic_analyze 10 c6_ast =
      (0, ⟨[[print_symbol,
             ⟨some "x", .VARIABLE, some get_void_type, false⟩,
             ⟨some "x", .VARIABLE, some get_void_type, false⟩]],
           [], false, none⟩) :=
  rfl

/-! ### C7 : diagnostics are dropped silently at capacity -/

/-- C7 (amended): the syntax and semantic diagnostic channels are bounded
at 100 entries; once a channel is full a further diagnostic is dropped
without crashing and WITHOUT emitting any "diagnostics truncated" marker
(every stored diagnostic is an earlier entry or the new message itself,
and a full channel is left exactly unchanged); the lexical channel stores
a single message, each new diagnostic replacing the previous one. -/
theorem diagnostic_channels_drop_silently :
    (∀ (st : PState) (m : String), st.errors.length ≤ 100 →
        ((add_error st m).errors.length ≤ 100 ∧
         (∀ e ∈ (add_error st m).errors, e ∈ st.errors ∨ e.message = m) ∧
         (st.errors.length = 100 → add_error st m = st))) ∧
    (∀ (st : SemState) (m : String), st.errors.length ≤ 100 →
        ((add_semantic_error st m).errors.length ≤ 100 ∧
         (∀ e ∈ (add_semantic_error st m).errors, e ∈ st.errors ∨ e.message = m) ∧
         (st.errors.length = 100 → add_semantic_error st m = st))) ∧
    (∀ (l : Lexer) (m : String),
        (lexer_error l m).has_errors = true ∧
        (lexer_error l m).error_message = some m) := by
  refine ⟨?_, ?_, fun l m => ⟨rfl, rfl⟩⟩
  · intro st m hle
    unfold add_error parser_error_capacity
    by_cases hfull : st.errors.length ≥ 100
    · rw [if_pos hfull]
      exact ⟨hle, fun e he => Or.inl he, fun _ => rfl⟩
    · rw [if_neg hfull]
      refine ⟨by simp; omega, ?_, fun hc => absurd (by omega : st.errors.length ≥ 100) hfull⟩
      intro e he
      rw [List.mem_append] at he
      rcases he with he | he
      · exact Or.inl he
      · rw [List.mem_singleton] at he
        subst he
        exact Or.inr rfl
  · intro st m hle
    unfold add_semantic_error semantic_error_capacity
    by_cases hfull : st.errors.length ≥ 100
    · rw [if_pos hfull]
      exact ⟨hle, fun e he => Or.inl he, fun _ => rfl⟩
    · rw [if_neg hfull]
      refine ⟨by simp; omega, ?_, fun hc => absurd (by omega : st.errors.length ≥ 100) hfull⟩
      intro e he
      rw [List.mem_append] at he
      rcases he with he | he
      · exact Or.inl he
      · rw [List.mem_singleton] at he
        subst he
        exact Or.inr rfl

/-- A parser error list at capacity. -/
def c7_full_parse_state : PState := ⟨[], 0, List.replicate 100 ⟨"e", 1, 1⟩⟩

/-- Witness for `diagnostic_channels_drop_silently` at a concrete full
channel. -/
theorem diagnostic_channels_drop_silently_witness :
    (add_error c7_full_parse_state "one more").errors.length ≤ 100 ∧
    (∀ e ∈ (add_error c7_full_parse_state "one more").errors,
        e ∈ c7_full_parse_state.errors ∨ e.message = "one more") ∧
    (c7_full_parse_state.errors.length = 100 →
        add_error c7_full_parse_state "one more" = c7_full_parse_state) :=
  diagnostic_channels_drop_silently.1 c7_full_parse_state "one more" (by decide)

/-- Counterexample to C7 as stated: with the parser channel at its
capacity of 100, one further `add_error` changes nothing — in particular
no terminal "diagnostics truncated" marker diagnostic appears. -/
theorem no_truncation_marker_counterexample :
    add_error c7_full_parse_state "one more" = c7_full_parse_state ∧
    (add_error c7_full_parse_state "one more").errors.all
      (fun e => e.message != "diagnostics truncated") = true :=
  ⟨rfl, by decide⟩

/-! ### The IR data model and textual printer of `src/ir/ir.h`, `src/ir/ir.c`

Nullable pointer fields become `Option`; the intrusive `next` linked
lists become Lean lists.  The `double float_val` payload of a constant
is embedded as its already-rendered `%f` text, since floating-point
formatting is outside this shallow embedding and no claim depends on
it.  The `successors`/`predecessors` arrays of a block are pointers
into the block graph that no printer reads, so the block record omits
them; likewise `last_instruction` (a tail pointer) and the
`entry_block` alias of a function. -/

/-- Embedding of `IROpcode` of `ir.h`. -/
inductive IROpcode where
  | ADD | SUB | MUL | DIV | MOD
  | EQ | NE | LT | LE | GT | GE
  | AND | OR | NOT
  | LOAD | STORE | ALLOCA
  | JUMP | BRANCH | CALL | RETURN
  | FUNC_BEGIN | FUNC_END
  | CONST_INT | CONST_FLOAT | CONST_STRING
  | VAR_DECL | VAR_ASSIGN
  | PRINT | READ
  | LOOP_BEGIN | LOOP_END | LOOP_CONTINUE | LOOP_BREAK
  | ASYNC_CALL | AWAIT | SPAWN
  | CAST | TYPEOF
  | NOP | LABEL | PHI
  deriving DecidableEq, Repr

/-- Embedding of the anonymous `constant` union member of `IRValue`
(`ir.h`): an `IR_CONST_INT_VAL`, `IR_CONST_FLOAT_VAL` or
`IR_CONST_STRING_VAL` payload.  The float payload carries its
pre-rendered `%f` text. -/
inductive IRConst where
  | intVal (v : Int)
  | floatVal (rendered : String)
  | stringVal (s : String)
  deriving DecidableEq, Repr

/-- Embedding of `IRValue` of `ir.h` (tag `IRValueType` plus union). -/
inductive IRValue where
  | register (reg_id : Int)
  | constant (c : IRConst)
  | label (l : String)
  | global (global_name : String)
  deriving DecidableEq, Repr

/-- Embedding of `IRInstruction` of `ir.h`. -/
structure IRInstruction where
  opcode : IROpcode
  dest : Option IRValue
  src1 : Option IRValue
  src2 : Option IRValue
  src3 : Option IRValue
  line_number : Int
  comment : Option String
  deriving DecidableEq, Repr

/-- Embedding of `IRBasicBlock` of `ir.h` (printer-relevant fields). -/
structure IRBasicBlock where
  label : Option String
  instructions : List IRInstruction
  deriving DecidableEq, Repr

/-- Embedding of `IRFunction` of `ir.h` (printer-relevant fields). -/
structure IRFunction where
  name : String
  parameters : List IRValue
  return_type : Option IRValue
  blocks : List IRBasicBlock
  next_register_id : Int
  deriving DecidableEq, Repr

/-- Embedding of `IRModule` of `ir.h`. -/
structure IRModule where
  name : String
  functions : List IRFunction
  globals : List IRValue
  string_constants : List String
  source_file : Option String
  target_triple : Option String
  deriving DecidableEq, Repr

/-- Embedding of `ir_opcode_to_string` of `ir.c` (the `default` arm is
unreachable: the match is total). -/
def ir_opcode_to_string : IROpcode → String
  | .ADD => "add"
  | .SUB => "sub"
  | .MUL => "mul"
  | .DIV => "div"
  | .MOD => "mod"
  | .EQ => "eq"
  | .NE => "ne"
  | .LT => "lt"
  | .LE => "le"
  | .GT => "gt"
  | .GE => "ge"
  | .AND => "and"
  | .OR => "or"
  | .NOT => "not"
  | .LOAD => "load"
  | .STORE => "store"
  | .ALLOCA => "alloca"
  | .JUMP => "jump"
  | .BRANCH => "branch"
  | .CALL => "call"
  | .RETURN => "return"
  | .FUNC_BEGIN => "func_begin"
  | .FUNC_END => "func_end"
  | .CONST_INT => "const_int"
  | .CONST_FLOAT => "const_float"
  | .CONST_STRING => "const_string"
  | .VAR_DECL => "var_decl"
  | .VAR_ASSIGN => "var_assign"
  | .PRINT => "print"
  | .READ => "read"
  | .LOOP_BEGIN => "loop_begin"
  | .LOOP_END => "loop_end"
  | .LOOP_CONTINUE => "loop_continue"
  | .LOOP_BREAK => "loop_break"
  | .ASYNC_CALL => "async_call"
  | .AWAIT => "await"
  | .SPAWN => "spawn"
  | .CAST => "cast"
  | .TYPEOF => "typeof"
  | .NOP => "nop"
  | .LABEL => "label"
  | .PHI => "phi"

/-- Embedding of `ir_value_print` of `ir.c`; instead of writing to a
`FILE*` it returns the text written. -/
def ir_value_print : IRValue → String
  | .register id => "%" ++ toString id
  | .constant (.intVal v) => toString v
  | .constant (.floatVal r) => r
  | .constant (.stringVal s) => "\"" ++ s ++ "\""
  | .label l => l
  | .global g => "@" ++ g

/-- Embedding of `ir_instruction_print` of `ir.c`: mnemonic, then the
destination after a space if non-NULL, then `src1` and `src2` each
after a comma if non-NULL, then an optional trailing comment.  Exactly
as in the C, `src3` is never printed. -/
def ir_instruction_print (i : IRInstruction) : String :=
  ir_opcode_to_string i.opcode
    ++ (match i.dest with
        | some d => " " ++ ir_value_print d
        | none => "")
    ++ (match i.src1 with
        | some s => ", " ++ ir_value_print s
        | none => "")
    ++ (match i.src2 with
        | some s => ", " ++ ir_value_print s
        | none => "")
    ++ (match i.comment with
        | some c => " ; " ++ c
        | none => "")

/-- Concatenation of a list of strings (the output of a C print loop). -/
def str_concat : List String → String
  | [] => ""
  | s :: ss => s ++ str_concat ss

/-- The block loop body of `ir_module_print` of `ir.c`: an optional
label line, then each instruction indented on its own line. -/
def ir_block_print (b : IRBasicBlock) : String :=
  (match b.label with
   | some l => l ++ ":\n"
   | none => "")
  ++ str_concat (b.instructions.map (fun i => "    " ++ ir_instruction_print i ++ "\n"))

/-- The function loop body of `ir_module_print` of `ir.c`. -/
def ir_function_print (f : IRFunction) : String :=
  "func_begin @" ++ f.name ++ "\n"
  ++ str_concat (f.blocks.map ir_block_print)
  ++ "func_end\n\n"

/-- Embedding of `ir_module_print` of `ir.c`: header comment lines,
a blank line, then each function. -/
def ir_module_print (m : IRModule) : String :=
  "; GPLANG IR Module: " ++ m.name ++ "\n"
  ++ (match m.source_file with
      | some s => "; Source: " ++ s ++ "\n"
      | none => "")
  ++ (match m.target_triple with
      | some t => "; Target: " ++ t ++ "\n"
      | none => "")
  ++ "\n"
  ++ str_concat (m.functions.map ir_function_print)

/-! #### Line structure of the dump (C9) -/

/-- Split a character sequence at every newline; a text of `n`
newlines yields `n + 1` (possibly empty) lines. -/
def split_lines : List Char → List (List Char)
  | [] => [[]]
  | c :: cs =>
      if c = '\n' then [] :: split_lines cs
      else
        match split_lines cs with
        | [] => [[c]]
        | l :: ls => (c :: l) :: ls

/-- Join lines, terminating every line with a newline. -/
def unlines : List (List Char) → List Char
  | [] => []
  | l :: ls => l ++ '\n' :: unlines ls

/-- A rendered line contains no embedded newline. -/
def line_chars_ok (l : List Char) : Bool :=
  l.all (fun c => c != '\n')

theorem line_chars_ok_spec {l : List Char} (h : line_chars_ok l = true) :
    ∀ c ∈ l, c ≠ '\n' := by
  intro c hc
  have h2 := List.all_eq_true.mp h c hc
  simpa using h2

theorem line_chars_ok_append (a b : List Char) :
    line_chars_ok (a ++ b) = (line_chars_ok a && line_chars_ok b) := by
  simp [line_chars_ok]

theorem unlines_append (a b : List (List Char)) :
    unlines (a ++ b) = unlines a ++ unlines b := by
  induction a with
  | nil => rfl
  | cons l a ih => simp [unlines, ih]

theorem split_lines_append_line (a b : List Char) (h : ∀ c ∈ a, c ≠ '\n') :
    split_lines (a ++ '\n' :: b) = a :: split_lines b := by
  induction a with
  | nil => simp [split_lines]
  | cons c a ih =>
    have hc : c ≠ '\n' := h c (List.mem_cons_self c a)
    have ha : ∀ x ∈ a, x ≠ '\n' := fun x hx => h x (List.mem_cons_of_mem c hx)
    show split_lines (c :: (a ++ '\n' :: b)) = (c :: a) :: split_lines b
    rw [split_lines.eq_def]
    dsimp only
    rw [if_neg hc, ih ha]

theorem split_lines_unlines (ls : List (List Char)) (r : List Char)
    (h : ls.all line_chars_ok = true) :
    split_lines (unlines ls ++ r) = ls ++ split_lines r := by
  induction ls with
  | nil => rfl
  | cons l ls ih =>
    rw [List.all_cons, Bool.and_eq_true] at h
    show split_lines ((l ++ '\n' :: unlines ls) ++ r) = (l :: ls) ++ split_lines r
    rw [List.append_assoc, List.cons_append,
      split_lines_append_line l _ (line_chars_ok_spec h.1), ih h.2]
    rfl

/-- The lines contributed by an instruction list: one indented line per
instruction, in order. -/
def instr_lines : List IRInstruction → List (List Char)
  | [] => []
  | i :: is => ("    " ++ ir_instruction_print i).data :: instr_lines is

/-- The lines contributed by one block: an optional `label:` line, then
its instruction lines. -/
def block_lines (b : IRBasicBlock) : List (List Char) :=
  (match b.label with
   | some l => [l.data ++ [':']]
   | none => [])
  ++ instr_lines b.instructions

def blocks_lines : List IRBasicBlock → List (List Char)
  | [] => []
  | b :: bs => block_lines b ++ blocks_lines bs

/-- The lines contributed by one function: exactly one `func_begin
@name` line, the lines of its blocks, exactly one `func_end` line, and
one blank separator line. -/
def function_lines (f : IRFunction) : List (List Char) :=
  ("func_begin @" ++ f.name).data :: (blocks_lines f.blocks ++ ["func_end".data, []])

def functions_lines : List IRFunction → List (List Char)
  | [] => []
  | f :: fs => function_lines f ++ functions_lines fs

/-- The full line list of a module dump: the header comment line, the
optional source/target comment lines, one blank line, then the
functions' lines. -/
def module_lines (m : IRModule) : List (List Char) :=
  ("; GPLANG IR Module: " ++ m.name).data ::
    ((match m.source_file with
      | some s => [("; Source: " ++ s).data]
      | none => []) ++
     (match m.target_triple with
      | some t => [("; Target: " ++ t).data]
      | none => []) ++
     ([] :: functions_lines m.functions))

theorem instr_print_data (is : List IRInstruction) :
    (str_concat (is.map (fun i => "    " ++ ir_instruction_print i ++ "\n"))).data
      = unlines (instr_lines is) := by
  induction is with
  | nil => rfl
  | cons i is ih =>
    simp only [List.map_cons, str_concat, String.data_append, instr_lines, unlines]
    rw [ih]
    simp [List.append_assoc, show ("\n").data = ['\n'] from rfl]

theorem block_print_data (b : IRBasicBlock) :
    (ir_block_print b).data = unlines (block_lines b) := by
  unfold ir_block_print block_lines
  cases hl : b.label with
  | none =>
    simpa [String.data_append] using instr_print_data b.instructions
  | some l =>
    simp only [String.data_append, instr_print_data b.instructions,
      unlines_append, unlines]
    simp [List.append_assoc, show (":\n").data = [':', '\n'] from rfl]

theorem blocks_print_data (bs : List IRBasicBlock) :
    (str_concat (bs.map ir_block_print)).data = unlines (blocks_lines bs) := by
  induction bs with
  | nil => rfl
  | cons b bs ih =>
    simp only [List.map_cons, str_concat, String.data_append, blocks_lines,
      unlines_append, block_print_data, ih]

theorem function_print_data (f : IRFunction) :
    (ir_function_print f).data = unlines (function_lines f) := by
  unfold ir_function_print function_lines
  simp only [String.data_append, blocks_print_data, unlines_append, unlines]
  simp [List.append_assoc, show ("\n").data = ['\n'] from rfl,
    show ("func_end\n\n").data = "func_end".data ++ ['\n', '\n'] from rfl]

theorem functions_print_data (fs : List IRFunction) :
    (str_concat (fs.map ir_function_print)).data = unlines (functions_lines fs) := by
  induction fs with
  | nil => rfl
  | cons f fs ih =>
    simp only [List.map_cons, str_concat, String.data_append, functions_lines,
      unlines_append, function_print_data, ih]

theorem module_print_data (m : IRModule) :
    (ir_module_print m).data = unlines (module_lines m) := by
  unfold ir_module_print module_lines
  cases hs : m.source_file <;> cases ht : m.target_triple <;>
    simp [String.data_append, functions_print_data, unlines_append, unlines,
      List.append_assoc, show ("\n").data = ['\n'] from rfl]

/-- **C9** (amended): line structure of the textual IR dump.  Provided
no rendered component line embeds a newline, splitting the dump of a
module at newlines yields exactly `module_lines m` (one header comment
line, optional source/target comment lines, a blank line, then per
function exactly one `func_begin @name` line, per block an optional
label line and one indented `ir_instruction_print` line per
instruction, one `func_end` line and one blank line) plus the final
empty tail of the terminating newline.  `ir_instruction_print` prints
the mnemonic, the non-NULL destination and the non-NULL `src1`/`src2`
operands comma-separated, and an optional `; comment` — but never
`src3`, which is why the claim's "all of its non-null source Values"
is corrected.  The dump is a pure function of the module, so
determinism is definitional. -/
theorem ir_dump_line_structure (m : IRModule)
    (h : (module_lines m).all line_chars_ok = true) :
    split_lines (ir_module_print m).data = module_lines m ++ [[]] := by
  rw [module_print_data m]
  have h2 := split_lines_unlines (module_lines m) [] h
  rw [List.append_nil] at h2
  exact h2

/-- A small concrete module: one function `main`, one labelled block,
three instructions. -/
def c9_module : IRModule :=
  ⟨"demo",
   [⟨"main", [], none,
     [⟨some "entry",
       [⟨.ALLOCA, some (.register 1), none, none, none, 0, none⟩,
        ⟨.STORE, none, some (.constant (.intVal 42)), some (.register 1), none, 0, some "x"⟩,
        ⟨.RETURN, none, some (.register 1), none, none, 0, none⟩]⟩],
     2⟩],
   [], [], some "demo.gp", none⟩

/-- Witness for `ir_dump_line_structure` on `c9_module`. -/
theorem ir_dump_line_structure_witness :
    (module_lines c9_module).all line_chars_ok = true ∧
    split_lines (ir_module_print c9_module).data = module_lines c9_module ++ [[]] :=
  ⟨by decide, ir_dump_line_structure c9_module (by decide)⟩

/-- A branch instruction carrying a third source operand. -/
def c9_branch_instruction : IRInstruction :=
  ⟨.BRANCH, none, some (.register 1), some (.label "L1"), some (.label "L2"), 0, none⟩

/-- Counterexample to C9 as stated: `ir_instruction_print` never prints
`src3`, so this branch instruction's non-null third source operand
`L2` is absent from its printed text (which, `dest` being NULL, even
starts `branch,` with no operand before the first comma). -/
theorem src3_operand_omitted_counterexample :
    c9_branch_instruction.src3 = some (.label "L2") ∧
    ir_instruction_print c9_branch_instruction = "branch, %1, L1" ∧
    occurs ("L2").data (ir_instruction_print c9_branch_instruction).data = false :=
  ⟨rfl, by decide, by decide⟩

/-! ### The IR Builder emission discipline (C4)

Modelled from the spec: `ir_basic_block_add_instruction` is declared in
`src/ir/ir.h` (line 173) and the `ir_builder_*` lowering functions at
lines 191–205, but none of them is implemented anywhere in the
repository — `ir.c` only provides constructors, destructors and the
printers.  The emission discipline below therefore follows the spec's
words: a block under construction accumulates instructions in emission
order; a terminator ("a jump, conditional branch, or return that ends
a Basic Block") finishes the block; "every block, once finished, ends
with exactly one control-transfer instruction (jump/branch/return) and
contains no instructions after it"; and "Every emitted BasicBlock must
be explicitly terminated before moving to the next; failing to
terminate a block before control moves elsewhere is an
internal-invariant violation", which aborts the compilation unit
(modelled as `none`). -/

/-- Modelled from the spec: the terminator opcodes are jump,
conditional branch and return (`IR_JUMP`, `IR_BRANCH`, `IR_RETURN` of
`ir.h`). -/
def is_terminator : IROpcode → Bool
  | .JUMP => true
  | .BRANCH => true
  | .RETURN => true
  | _ => false

/-- Modelled from the spec: a basic block under construction — its
label, its instructions in emission order, and whether a terminator
has already finished it. -/
structure BuildBlock where
  label : Option String
  instructions : List IRInstruction
  finished : Bool
  deriving DecidableEq, Repr

/-- Modelled from the spec: appending an instruction to a block that a
terminator has already finished would put an instruction after the
terminator — an internal-invariant violation (`none`); otherwise the
instruction is appended in emission order and a terminator finishes
the block. -/
def ir_basic_block_add_instruction (b : BuildBlock) (i : IRInstruction) :
    Option BuildBlock :=
  if b.finished then none
  else some { b with
              instructions := b.instructions ++ [i]
              finished := is_terminator i.opcode }

/-- Modelled from the spec: one emission event of the IR Builder —
emit an instruction into the current block, or move on to a fresh
block. -/
inductive BuildOp where
  | emit (i : IRInstruction)
  | start_block (label : Option String)
  deriving DecidableEq, Repr

/-- Modelled from the spec: the blocks already finished, in order, plus
the block currently under construction (if any). -/
structure BuilderState where
  done : List BuildBlock
  current : Option BuildBlock
  deriving DecidableEq, Repr

/-- Modelled from the spec: a single builder step.  Emitting with no
current block, or moving to a new block while the current one is not
yet terminated, is an internal-invariant violation aborting the unit
(`none`). -/
def builder_step (st : BuilderState) : BuildOp → Option BuilderState
  | .emit i =>
      match st.current with
      | some b =>
          match ir_basic_block_add_instruction b i with
          | some b2 => some ⟨st.done, some b2⟩
          | none => none
      | none => none
  | .start_block lbl =>
      match st.current with
      | some b =>
          if b.finished then some ⟨st.done ++ [b], some ⟨lbl, [], false⟩⟩
          else none
      | none => some ⟨st.done, some ⟨lbl, [], false⟩⟩

def builder_run_from (st : BuilderState) : List BuildOp → Option BuilderState
  | [] => some st
  | op :: ops =>
      match builder_step st op with
      | some st2 => builder_run_from st2 ops
      | none => none

/-- Modelled from the spec: run the IR Builder's emission discipline
over a whole event sequence, starting with no blocks. -/
def builder_run (ops : List BuildOp) : Option BuilderState :=
  builder_run_from ⟨[], none⟩ ops

/-- An instruction list ends with exactly one terminator: it is
nonempty, its last instruction is a terminator, and every earlier
instruction is not. -/
def well_terminated_chk : List IRInstruction → Bool
  | [] => false
  | t :: rest =>
      match rest with
      | [] => is_terminator t.opcode
      | _ :: _ => !(is_terminator t.opcode) && well_terminated_chk rest

/-- A finished block ends with exactly one terminator and has no
instructions after it. -/
def well_terminated (b : BuildBlock) : Bool :=
  well_terminated_chk b.instructions

theorem well_terminated_chk_append (pre : List IRInstruction) (t : IRInstruction)
    (hp : pre.all (fun i => !(is_terminator i.opcode)) = true)
    (ht : is_terminator t.opcode = true) :
    well_terminated_chk (pre ++ [t]) = true := by
  induction pre with
  | nil => exact ht
  | cons i pre ih =>
    rw [List.all_cons, Bool.and_eq_true] at hp
    have hrest := ih hp.2
    cases pre with
    | nil =>
      show (!(is_terminator i.opcode) && well_terminated_chk [t]) = true
      rw [Bool.and_eq_true]
      exact ⟨hp.1, ht⟩
    | cons p ps =>
      show (!(is_terminator i.opcode) && well_terminated_chk ((p :: ps) ++ [t])) = true
      rw [Bool.and_eq_true]
      exact ⟨hp.1, hrest⟩

/-- The invariant maintained by every builder step: finished blocks end
with exactly one terminator; an unfinished current block holds only
non-terminators so far. -/
def builder_inv (st : BuilderState) : Prop :=
  (∀ b ∈ st.done, b.finished = true ∧ well_terminated b = true) ∧
  (∀ b, st.current = some b →
      (b.finished = true → well_terminated b = true) ∧
      (b.finished = false →
        b.instructions.all (fun i => !(is_terminator i.opcode)) = true))

theorem builder_step_inv (st : BuilderState) (op : BuildOp) (st2 : BuilderState)
    (hinv : builder_inv st) (h : builder_step st op = some st2) :
    builder_inv st2 := by
  obtain ⟨hdone, hcur⟩ := hinv
  cases op with
  | emit i =>
    unfold builder_step at h
    dsimp only at h
    cases hc : st.current with
    | none =>
      rw [hc] at h
      exact Option.noConfusion h
    | some b =>
      rw [hc] at h
      dsimp only at h
      unfold ir_basic_block_add_instruction at h
      by_cases hf : b.finished = true
      · rw [if_pos hf] at h
        exact Option.noConfusion h
      · rw [if_neg hf] at h
        simp only [Bool.not_eq_true] at hf
        dsimp only at h
        have h2 := Option.some.inj h
        subst h2
        refine ⟨hdone, ?_⟩
        intro b2 hb2
        have h3 := Option.some.inj hb2
        subst h3
        constructor
        · intro hft
          have hterm : is_terminator i.opcode = true := hft
          have hpre := (hcur b hc).2 hf
          exact well_terminated_chk_append b.instructions i hpre hterm
        · intro hff
          have hterm : is_terminator i.opcode = false := hff
          have hpre := (hcur b hc).2 hf
          show (b.instructions ++ [i]).all (fun j => !(is_terminator j.opcode)) = true
          rw [List.all_append, Bool.and_eq_true]
          refine ⟨hpre, ?_⟩
          simp [hterm]
  | start_block lbl =>
    unfold builder_step at h
    dsimp only at h
    cases hc : st.current with
    | none =>
      rw [hc] at h
      dsimp only at h
      have h2 := Option.some.inj h
      subst h2
      refine ⟨hdone, ?_⟩
      intro b hb
      have h3 := Option.some.inj hb
      rw [← h3]
      constructor
      · intro hft
        exact Bool.noConfusion hft
      · intro _
        rfl
    | some b =>
      rw [hc] at h
      dsimp only at h
      by_cases hf : b.finished = true
      · rw [if_pos hf] at h
        have h2 := Option.some.inj h
        subst h2
        constructor
        · intro b2 hb2
          rw [List.mem_append] at hb2
          rcases hb2 with hb2 | hb2
          · exact hdone b2 hb2
          · rw [List.mem_singleton] at hb2
            rw [hb2]
            exact ⟨hf, (hcur b hc).1 hf⟩
        · intro b2 hb2
          have h3 := Option.some.inj hb2
          rw [← h3]
          constructor
          · intro hft
            exact Bool.noConfusion hft
          · intro _
            rfl
      · rw [if_neg hf] at h
        exact Option.noConfusion h

theorem builder_run_from_inv (ops : List BuildOp) (st st2 : BuilderState)
    (hinv : builder_inv st) (h : builder_run_from st ops = some st2) :
    builder_inv st2 := by
  induction ops generalizing st with
  | nil =>
    unfold builder_run_from at h
    have h2 := Option.some.inj h
    subst h2
    exact hinv
  | cons op ops ih =>
    unfold builder_run_from at h
    cases hs : builder_step st op with
    | none =>
      rw [hs] at h
      exact Option.noConfusion h
    | some st1 =>
      rw [hs] at h
      exact ih st1 (builder_step_inv st op st1 hinv hs) h

/-- **C4** (spec-modelled): for every successful run of the IR
Builder's emission discipline, every block that has been finished —
whether already archived or still current — ends with exactly one
terminator instruction (jump, branch or return) and contains no
instructions after it: its instruction list is nonempty, its last
instruction is a terminator, and no earlier instruction is. -/
theorem builder_finished_blocks_well_terminated
    (ops : List BuildOp) (st : BuilderState) (b : BuildBlock)
    (h : builder_run ops = some st)
    (hb : b ∈ st.done ∨ st.current = some b)
    (hf : b.finished = true) :
    well_terminated b = true := by
  have hinv : builder_inv st :=
    builder_run_from_inv ops ⟨[], none⟩ st
      ⟨fun b2 hb2 => absurd hb2 (List.not_mem_nil b2),
       fun b2 hb2 => Option.noConfusion hb2⟩ h
  rcases hb with hb | hb
  · exact (hinv.1 b hb).2
  · exact (hinv.2 b hb).1 hf

def c4_alloca_instruction : IRInstruction :=
  ⟨.ALLOCA, some (.register 1), none, none, none, 0, none⟩

def c4_return_instruction : IRInstruction :=
  ⟨.RETURN, none, some (.register 1), none, none, 0, none⟩

def c4_ops : List BuildOp :=
  [.start_block (some "entry"),
   .emit c4_alloca_instruction,
   .emit c4_return_instruction]

def c4_final_block : BuildBlock :=
  ⟨some "entry", [c4_alloca_instruction, c4_return_instruction], true⟩

def c4_final_state : BuilderState := ⟨[], some c4_final_block⟩

/-- Witness for `builder_finished_blocks_well_terminated` on a concrete
run. -/
theorem builder_finished_blocks_well_terminated_witness :
    builder_run c4_ops = some c4_final_state ∧
    well_terminated c4_final_block = true :=
  ⟨by decide,
   builder_finished_blocks_well_terminated c4_ops c4_final_state c4_final_block
     (by decide) (Or.inr rfl) rfl⟩

end GPLang
